import Mathlib

/-!
Verification of the libcanard transport-layer engine against its design
specification.  The repository ships the public header `src/libcanard/canard.h`
with the constants, data types and entry-point signatures of the library; the
translation unit implementing the declared entry points is not part of the
source tree.  The behavioural components below (integrity check, TX pipeline,
RX pipeline and session table, bit codec, half-precision converter) are
therefore modelled from the specification document, faithful to its wording,
while the constants (node-ID bounds, transfer-ID width, defaults) and the
shapes of the public signatures come from the header.  Machine integers are
modelled as `Nat` with explicit `% 2 ^ w` masking where the corresponding C
code truncates; CAN frames carry the demultiplexed identifier fields
(priority, kind, port, source) directly because the specification leaves the
29-bit identifier layout to "protocol convention" and no claim depends on it.
-/

namespace Canard

/-! ## Constants fixed by the header `canard.h` -/

def CANARD_NODE_ID_MAX : Nat := 127

def CANARD_NODE_ID_UNSET : Nat := 255

def CANARD_TRANSFER_ID_MAX : Nat := 31

def CANARD_MTU_CAN_FD : Nat := 64

/-! ## Integrity check (transfer CRC)

Modelled from the spec: a 16-bit CRC, CRC-16/CCITT-FALSE profile (polynomial
0x1021, initial value 0xFFFF, no input/output reflection), computed
incrementally byte by byte; each byte is xored into the high byte of the
running value and followed by eight shift-and-conditional-xor steps. -/

/-- Modelled from the spec: one shift step of the CRC bit loop; the value is
kept to 16 bits as the C accumulator is a `uint16_t`. -/
def crcStep (v : Nat) : Nat :=
  ((v <<< 1) ^^^ (if v.testBit 15 then 0x1021 else 0)) % 2 ^ 16

/-- Modelled from the spec: the eight-iteration inner loop of the per-byte CRC
update. -/
def crcLoop8 (x : Nat) : Nat :=
  (List.range 8).foldl (fun v _ => crcStep v) x

/-- Modelled from the spec: CRC per-byte update (byte xored into the high byte
of the running value, then eight bit steps). -/
def crcAddByte (crc b : Nat) : Nat :=
  crcLoop8 ((crc ^^^ (b <<< 8)) % 2 ^ 16)

/-- Modelled from the spec: incremental CRC over a byte sequence. -/
def crcAdd (crc : Nat) (bs : List Nat) : Nat :=
  bs.foldl crcAddByte crc

/-- CRC-16/CCITT-FALSE initial value, from the spec. -/
def CRC_INITIAL : Nat := 0xFFFF

/-- Big-endian two-byte encoding of a 16-bit CRC value, appended to the byte
stream of a multi-frame transfer (high byte first, per the spec). -/
def crcBytes (c : Nat) : List Nat :=
  [c >>> 8, c % 256]

/-- Explicit inverse of `crcStep` on 16-bit values; a proof gadget used to
establish that the CRC step is injective, so that single-byte corruptions are
always detected. -/
def crcUnstep (w : Nat) : Nat :=
  if w % 2 = 1 then ((w ^^^ 0x1021) / 2) + 2 ^ 15 else w / 2

/-! ## Data model (transfers and frames)

Modelled from the spec, with field shapes from the header: a transfer carries
timestamp, priority, kind, port-ID, remote node-ID, 5-bit transfer-ID and
payload bytes; a CAN frame carries a timestamp, the demultiplexed identifier
fields and its payload bytes, whose last byte is the tail byte. -/

structure CanardTransfer where
  timestamp : Nat
  priority : Nat
  kind : Nat
  port : Nat
  remoteNodeID : Nat
  transferID : Nat
  payload : List Nat
deriving DecidableEq

structure CanardCANFrame where
  timestamp : Nat
  priority : Nat
  kind : Nat
  port : Nat
  sourceNodeID : Nat
  payload : List Nat
deriving DecidableEq

/-- Modelled from the spec: the fixed initial value of the alternating toggle
bit at the start of every transfer. -/
def INITIAL_TOGGLE : Bool := true

/-- Wire framing tail byte, from the spec: bit 7 = start-of-transfer, bit 6 =
end-of-transfer, bit 5 = toggle, bits 4..0 = transfer-ID mod 32. -/
def tailByte (sot eot tog : Bool) (tid : Nat) : Nat :=
  (if sot then 2 ^ 7 else 0) + (if eot then 2 ^ 6 else 0) +
    (if tog then 2 ^ 5 else 0) + tid % 32

def tailSOT (t : Nat) : Bool := t.testBit 7

def tailEOT (t : Nat) : Bool := t.testBit 6

def tailToggle (t : Nat) : Bool := t.testBit 5

def tailTID (t : Nat) : Nat := t % 32

/-! ## TX pipeline

Modelled from the spec: `push` computes the logical byte stream of the
transfer (payload alone if it fits one frame together with the tail byte,
otherwise payload followed by the big-endian transfer CRC), fragments it into
chunks of MTU-1 data bytes, appends a tail byte to each chunk, allocates the
frames one by one through the external allocator, and links them into the
priority-ordered TX queue with a stable FIFO tie-break realised by a
monotonically increasing sequence number. -/

/-- Modelled from the spec: the logical byte stream of a transfer prior to
fragmentation.  A transfer is single-frame exactly when payload plus tail byte
fit within the MTU; only multi-frame streams carry the CRC suffix. -/
def txByteStream (mtu : Nat) (p : List Nat) : List Nat :=
  if p.length + 1 ≤ mtu then p else p ++ crcBytes (crcAdd CRC_INITIAL p)

/-- Fuel-bounded chunk splitter (the fuel is an upper bound on the number of
chunks, so the recursion is structural). -/
def chunksOfFuel (n : Nat) : Nat → List Nat → List (List Nat)
  | 0, l => [l]
  | fuel + 1, l =>
    if l.length ≤ n + 1 then [l]
    else l.take (n + 1) :: chunksOfFuel n fuel (l.drop (n + 1))

/-- Splits a byte stream into chunks of `n + 1` bytes (the last chunk may be
shorter); an empty stream yields one empty chunk, matching the single-frame
case of an empty payload. -/
def chunksOf (n : Nat) (l : List Nat) : List (List Nat) :=
  chunksOfFuel n l.length l

/-- Modelled from the spec: frame sequence for a list of data chunks; the
first frame carries start-of-transfer, the last carries end-of-transfer, the
toggle alternates from its fixed initial value, and every frame ends with the
tail byte.  Timestamps increase by one per frame. -/
def mkFrames (prio kind port src tid t0 : Nat) (tog sot : Bool) :
    List (List Nat) → List CanardCANFrame
  | [] => []
  | c :: cs =>
    { timestamp := t0, priority := prio, kind := kind, port := port,
      sourceNodeID := src,
      payload := c ++ [tailByte sot cs.isEmpty tog (tid % 32)] } ::
      mkFrames prio kind port src tid (t0 + 1) (!tog) false cs

/-- Modelled from the spec: fragmentation of a transfer into CAN frames for a
given MTU (each frame holds MTU-1 data bytes plus the tail byte). -/
def txFrames (mtu : Nat) (t : CanardTransfer) (src : Nat) : List CanardCANFrame :=
  mkFrames t.priority t.kind t.port src t.transferID t.timestamp INITIAL_TOGGLE true
    (chunksOf (mtu - 2) (txByteStream mtu t.payload))

/-- One pending TX queue entry: the frame plus its ordering key (transfer
priority and a monotonically increasing sequence number preserving FIFO order
among equal priorities), per the spec. -/
structure TxQueueItem where
  priority : Nat
  seq : Nat
  frame : CanardCANFrame
deriving DecidableEq

/-- Modelled from the spec: insertion into the singly-linked TX queue, after
all items of lower-or-equal priority value (stable FIFO tie-break). -/
def txInsert (x : TxQueueItem) : List TxQueueItem → List TxQueueItem
  | [] => [x]
  | y :: ys => if y.priority ≤ x.priority then y :: txInsert x ys else x :: y :: ys

/-- Enqueues the frames of one transfer, assigning consecutive sequence
numbers starting at `seq0`. -/
def txEnqueue (q : List TxQueueItem) (seq0 prio : Nat) :
    List CanardCANFrame → List TxQueueItem
  | [] => q
  | f :: fs => txEnqueue (txInsert ⟨prio, seq0, f⟩ q) (seq0 + 1) prio fs

/-- Allocator interaction event: one allocation attempt (with its outcome) or
one release, recorded with the block number. -/
inductive MemEvent where
  | alloc (id : Nat) (ok : Bool)
  | free (id : Nat)
deriving DecidableEq

/-- Modelled from the spec: allocate `n` blocks one at a time through the
external allocator (an oracle answering each numbered request); on the first
failure the successfully allocated block list is reported with a failure
flag. -/
def tryAlloc (oracle : Nat → Bool) (ctr : Nat) : Nat → Bool × List Nat × Nat
  | 0 => (true, [], ctr)
  | n + 1 =>
    if oracle ctr then
      match tryAlloc oracle (ctr + 1) n with
      | (ok, ids, c) => (ok, ctr :: ids, c)
    else (false, [], ctr + 1)

/-! ## RX session table -/

/-- Reception parameters returned by the application's accept-filter, from the
header: the transfer-ID timeout (zero meaning the transfer shall not be
received) and the maximum stored payload size. -/
structure CanardRxMetadata where
  transferIDTimeout : Nat
  payloadSizeMax : Nat

/-- The accept-filter callback: port-ID, transfer kind, source node-ID
(UNSET when anonymous) to reception parameters, from the header. -/
abbrev CanardRxFilter := Nat → Nat → Nat → CanardRxMetadata

/-- Modelled from the spec: per-(source, port, kind) reassembly context:
last/in-progress transfer-ID, expected toggle, stored (truncated) payload,
untruncated running byte count, running CRC, last-frame timestamp, and the
session's admitted bounds. -/
structure RxSession where
  transferID : Nat
  toggle : Bool
  payload : List Nat
  totalSize : Nat
  crc : Nat
  timestamp : Nat
  payloadSizeMax : Nat
  timeout : Nat
deriving DecidableEq

/-- RX session key: (source node-ID, port-ID, transfer kind). -/
abbrev RxKey := Nat × Nat × Nat

/-- Modelled from the spec: discard any in-progress accumulation and make the
session ready to accept a transfer with the given transfer-ID from its first
frame (resynchronization). -/
def rxSessionRestart (s : RxSession) (tid : Nat) : RxSession :=
  { s with transferID := tid, toggle := INITIAL_TOGGLE, payload := [],
           totalSize := 0, crc := CRC_INITIAL }

/-- Modelled from the spec (Implicit Truncation Rule): every received data
byte is fed to the CRC and counted, but bytes beyond the session's configured
maximum are not copied into storage. -/
def rxAccumulate (s : RxSession) (data : List Nat) (ts : Nat) : RxSession :=
  { s with payload := s.payload ++ data.take (s.payloadSizeMax - s.payload.length),
           totalSize := s.totalSize + data.length,
           crc := crcAdd s.crc data,
           timestamp := ts }

/-- Modelled from the spec: the per-frame session state machine (after the
timeout check).  A frame whose toggle does not match the expected toggle, or a
continuation frame whose transfer-ID does not match the in-progress transfer,
is dropped without touching the session.  A start-of-transfer frame resets the
accumulation and records its transfer-ID.  Accepted data is accumulated under
the truncation rule; on end-of-transfer the transfer is emitted if it is
single-frame (no CRC expected) or the running CRC equals zero, and the session
is cleared for the next transfer-ID either way. -/
def rxSessionStep (s : RxSession) (fr : CanardCANFrame) :
    RxSession × Option CanardTransfer :=
  let tail := fr.payload.getLastD 0
  let data := fr.payload.dropLast
  let sot := tailSOT tail
  let eot := tailEOT tail
  let tog := tailToggle tail
  let tid := tailTID tail
  if tog ≠ s.toggle then (s, none)
  else if ¬sot ∧ tid ≠ s.transferID then (s, none)
  else
    let s1 := if sot then rxSessionRestart s tid else s
    let s2 := rxAccumulate s1 data fr.timestamp
    if eot then
      ({ s2 with toggle := INITIAL_TOGGLE, transferID := (s2.transferID + 1) % 32,
                 payload := [], totalSize := 0, crc := CRC_INITIAL },
       if sot ∨ s2.crc = 0 then
         some { timestamp := fr.timestamp, priority := fr.priority,
                kind := fr.kind, port := fr.port,
                remoteNodeID := fr.sourceNodeID, transferID := tid,
                payload := s2.payload }
       else none)
    else ({ s2 with toggle := !s2.toggle }, none)

/-- Modelled from the spec: the timeout check preceding the state machine — if
the frame's timestamp minus the session's last-frame timestamp exceeds the
session's configured timeout, the in-progress accumulation is discarded and
the frame is treated as the start of a new transfer. -/
def rxSessionUpdate (s : RxSession) (fr : CanardCANFrame) :
    RxSession × Option CanardTransfer :=
  let tid := tailTID (fr.payload.getLastD 0)
  let s0 := if fr.timestamp - s.timestamp > s.timeout then rxSessionRestart s tid else s
  rxSessionStep s0 fr

/-- Session-level run over a frame sequence, collecting emitted transfers. -/
def rxSessionRun (s : RxSession) : List CanardCANFrame → RxSession × List CanardTransfer
  | [] => (s, [])
  | fr :: frs =>
    let (s1, tr) := rxSessionUpdate s fr
    let (s2, trs) := rxSessionRun s1 frs
    (s2, tr.toList ++ trs)

/-! ## Library instance state -/

/-- The mutable state of one library instance: local node-ID (with MTU), the
TX queue with its FIFO sequence counter, the RX session table, and the
bookkeeping of the external allocator (next block number and number of live
blocks). -/
structure CanardInstanceState where
  nodeID : Nat
  mtu : Nat
  txQueue : List TxQueueItem
  txSeq : Nat
  rxSessions : List (RxKey × RxSession)
  allocCount : Nat
  liveBlocks : Nat
deriving DecidableEq

/-- Defaults from the header: node-ID UNSET, MTU the maximum valid value,
empty queue and session table. -/
def canardInitState : CanardInstanceState :=
  { nodeID := CANARD_NODE_ID_UNSET, mtu := CANARD_MTU_CAN_FD, txQueue := [],
    txSeq := 0, rxSessions := [], allocCount := 0, liveBlocks := 0 }

/-- Modelled from the header: library functions treat all node-ID values above
`CANARD_NODE_ID_MAX` as anonymous/unset; every use of the local node-ID goes
through this view. -/
def canardLocalNodeID (s : CanardInstanceState) : Nat :=
  if s.nodeID ≤ CANARD_NODE_ID_MAX then s.nodeID else CANARD_NODE_ID_UNSET

/-- Modelled from the spec: `canardTxPush` fragments the transfer, allocates
its frames one at a time, and either links them all into the priority queue or
— on any allocation failure — releases every frame already allocated for this
call and leaves the queue exactly as it was.  Per the header the C function
returns `void`; the model accordingly returns only the new instance state,
paired with the trace of allocator interactions. -/
def canardTxPush (oracle : Nat → Bool) (s : CanardInstanceState)
    (t : CanardTransfer) : CanardInstanceState × List MemEvent :=
  let frames := txFrames s.mtu t (canardLocalNodeID s)
  match tryAlloc oracle s.allocCount frames.length with
  | (true, ids, c) =>
    ({ s with txQueue := txEnqueue s.txQueue s.txSeq t.priority frames,
              txSeq := s.txSeq + frames.length,
              allocCount := c, liveBlocks := s.liveBlocks + frames.length },
     ids.map (fun i => MemEvent.alloc i true))
  | (false, ids, c) =>
    ({ s with allocCount := c },
     ids.map (fun i => MemEvent.alloc i true) ++ [MemEvent.alloc (c - 1) false] ++
       ids.map MemEvent.free)

/-- Modelled from the spec: `peek` returns the head of the priority queue
without removing it (the header's zero-timestamp empty sentinel is rendered as
`none`). -/
def canardTxPeek (s : CanardInstanceState) : Option CanardCANFrame :=
  s.txQueue.head?.map (fun x => x.frame)

/-- Modelled from the spec: `pop` removes and releases the current head of the
queue; popping an empty queue does nothing. -/
def canardTxPop (s : CanardInstanceState) : CanardInstanceState :=
  match s.txQueue with
  | [] => s
  | _ :: xs => { s with txQueue := xs, liveBlocks := s.liveBlocks - 1 }

/-- Replaces the session stored under a key in the session table. -/
def updateAssoc (key : RxKey) (v : RxSession) :
    List (RxKey × RxSession) → List (RxKey × RxSession) :=
  List.map (fun kv => if kv.1 = key then (key, v) else kv)

/-- Modelled from the spec: a freshly allocated session for the first observed
frame of its key, sized and timed per the accept-filter decision. -/
def freshSession (f : CanardRxFilter) (fr : CanardCANFrame) : RxSession :=
  { transferID := tailTID (fr.payload.getLastD 0), toggle := INITIAL_TOGGLE,
    payload := [], totalSize := 0, crc := CRC_INITIAL,
    timestamp := fr.timestamp,
    payloadSizeMax := (f fr.port fr.kind fr.sourceNodeID).payloadSizeMax,
    timeout := (f fr.port fr.kind fr.sourceNodeID).transferIDTimeout }

/-- Modelled from the spec: `canardRxPush` processes one inbound frame.
Anonymous origins (source node-ID above `CANARD_NODE_ID_MAX`) are stateless:
the filter is consulted with UNSET, a single-frame transfer is emitted
immediately and multi-frame anonymous transfers are dropped.  Otherwise the
filter is consulted; a zero timeout drops the frame and tears down any session
for the key; else the session is found or allocated (an allocation failure
drops the frame with no state change) and driven by the per-frame state
machine.  Per the header the C function returns only a `CanardTransfer`
(empty when no transfer completed); the model returns the state, the optional
completed transfer, and the allocator trace. -/
def canardRxPush (f : CanardRxFilter) (oracle : Nat → Bool)
    (s : CanardInstanceState) (fr : CanardCANFrame) :
    CanardInstanceState × Option CanardTransfer × List MemEvent :=
  if fr.payload.isEmpty then (s, none, [])
  else
    let tail := fr.payload.getLastD 0
    let tid := tailTID tail
    if CANARD_NODE_ID_MAX < fr.sourceNodeID then
      let meta := f fr.port fr.kind CANARD_NODE_ID_UNSET
      if meta.transferIDTimeout = 0 then (s, none, [])
      else if tailSOT tail ∧ tailEOT tail then
        (s,
         some { timestamp := fr.timestamp, priority := fr.priority,
                kind := fr.kind, port := fr.port,
                remoteNodeID := CANARD_NODE_ID_UNSET, transferID := tid,
                payload := fr.payload.dropLast.take meta.payloadSizeMax },
         [])
      else (s, none, [])
    else
      let meta := f fr.port fr.kind fr.sourceNodeID
      let key : RxKey := (fr.sourceNodeID, fr.port, fr.kind)
      if meta.transferIDTimeout = 0 then
        ({ s with rxSessions := s.rxSessions.filter (fun kv => kv.1 ≠ key) }, none, [])
      else
        match List.lookup key s.rxSessions with
        | some sess =>
          let (sess2, tr) := rxSessionUpdate sess fr
          ({ s with rxSessions := updateAssoc key sess2 s.rxSessions }, tr, [])
        | none =>
          if oracle s.allocCount then
            let (sess2, tr) := rxSessionStep (freshSession f fr) fr
            ({ s with rxSessions := (key, sess2) :: s.rxSessions,
                      allocCount := s.allocCount + 1,
                      liveBlocks := s.liveBlocks + 1 },
             tr, [MemEvent.alloc s.allocCount true])
          else
            ({ s with allocCount := s.allocCount + 1 }, none,
             [MemEvent.alloc s.allocCount false])

/-- Instance-level run over an inbound frame sequence, collecting emitted
transfers. -/
def rxFeed (f : CanardRxFilter) (oracle : Nat → Bool)
    (s : CanardInstanceState) : List CanardCANFrame →
    CanardInstanceState × List CanardTransfer
  | [] => (s, [])
  | fr :: frs =>
    let (s1, tr, _) := canardRxPush f oracle s fr
    let (s2, trs) := rxFeed f oracle s1 frs
    (s2, tr.toList ++ trs)

/-! ## TX ordering (claims about the queue invariant) -/

/-- Strict ordering of TX queue entries: ascending priority value, ties broken
by ascending (insertion-order) sequence number. -/
def txItemLt (a b : TxQueueItem) : Prop :=
  a.priority < b.priority ∨ (a.priority = b.priority ∧ a.seq < b.seq)

/-- The TX queue invariant: sorted by ascending priority with FIFO tie-break. -/
def txQueueSorted (q : List TxQueueItem) : Prop :=
  q.Pairwise txItemLt

/-- One application-visible TX operation. -/
inductive TxOp where
  | push (t : CanardTransfer)
  | peek
  | pop

/-- Runs a sequence of TX operations (peek does not change state). -/
def txRun (oracle : Nat → Bool) (s : CanardInstanceState) :
    List TxOp → CanardInstanceState
  | [] => s
  | TxOp.push t :: ops => txRun oracle (canardTxPush oracle s t).1 ops
  | TxOp.peek :: ops => txRun oracle s ops
  | TxOp.pop :: ops => txRun oracle (canardTxPop s) ops

/-- The session state in the middle of a reassembly driven by well-formed
frames: `acc` is the byte stream received so far (stored under the truncation
rule), a proof-support abbreviation. -/
def midSession (tid X T : Nat) (acc : List Nat) (ts : Nat) (tog : Bool) : RxSession :=
  { transferID := tid % 32, toggle := tog, payload := acc.take X,
    totalSize := acc.length, crc := crcAdd CRC_INITIAL acc, timestamp := ts,
    payloadSizeMax := X, timeout := T }

/-- The session state after an end-of-transfer frame: cleared and ready for
the next transfer-ID, a proof-support abbreviation. -/
def doneSession (tid X T ts : Nat) : RxSession :=
  { transferID := (tid % 32 + 1) % 32, toggle := INITIAL_TOGGLE, payload := [],
    totalSize := 0, crc := CRC_INITIAL, timestamp := ts,
    payloadSizeMax := X, timeout := T }

/-- The blocks successfully obtained from the allocator in a trace. -/
def allocOKIDs (ev : List MemEvent) : List Nat :=
  ev.filterMap (fun e => match e with
    | MemEvent.alloc i true => some i
    | _ => none)

/-- The blocks released to the allocator in a trace. -/
def freedIDs (ev : List MemEvent) : List Nat :=
  ev.filterMap (fun e => match e with
    | MemEvent.free i => some i
    | _ => none)

/-- The TX state invariant: the queue is priority-sorted with FIFO tie-break
and every stored sequence number is below the running counter. -/
def TxInv (s : CanardInstanceState) : Prop :=
  txQueueSorted s.txQueue ∧ ∀ y ∈ s.txQueue, y.seq < s.txSeq

/-- A minimal transfer of the given priority, used by the concrete ordering
example of the spec (its empty payload fits one frame). -/
def exampleTransfer (prio : Nat) : CanardTransfer :=
  { timestamp := 1, priority := prio, kind := 0, port := 1,
    remoteNodeID := CANARD_NODE_ID_UNSET, transferID := 0, payload := [] }

/-- An accept-filter admitting everything with a fixed timeout and payload
bound, used by concrete examples. -/
def exampleFilter (timeout max : Nat) : CanardRxFilter :=
  fun _ _ _ => { transferIDTimeout := timeout, payloadSizeMax := max }

/-- First frame of a two-frame transfer (tail byte 0xA0: start-of-transfer,
toggle set, transfer-ID 0), used by the concrete replay example. -/
def replayFrame1 : CanardCANFrame :=
  { timestamp := 100, priority := 4, kind := 0, port := 7, sourceNodeID := 5,
    payload := [1, 2, 160] }

/-- Continuation frame of the same transfer (tail byte 0: no flags, toggle
clear, transfer-ID 0), used by the concrete replay example. -/
def replayFrame2 : CanardCANFrame :=
  { timestamp := 101, priority := 4, kind := 0, port := 7, sourceNodeID := 5,
    payload := [3, 4, 0] }

/-- A session mid-reassembly whose last frame is long past, used by the
concrete timeout example. -/
def staleSession : RxSession :=
  { transferID := 3, toggle := false, payload := [9, 9], totalSize := 2,
    crc := 123, timestamp := 100, payloadSizeMax := 100, timeout := 50 }

/-- A start-of-transfer frame arriving after the timeout, used by the
concrete timeout example. -/
def resyncFrame : CanardCANFrame :=
  { timestamp := 200, priority := 4, kind := 0, port := 7, sourceNodeID := 5,
    payload := [1, 2, 160] }

/-- A session expecting a clear toggle, used by the concrete duplicate
example. -/
def dupSession : RxSession :=
  { transferID := 0, toggle := false, payload := [1, 2], totalSize := 2,
    crc := 5, timestamp := 100, payloadSizeMax := 10, timeout := 1000 }

/-- A single-frame message (tail byte 0xE0: start and end of transfer, toggle
set) from an out-of-range source node-ID, used by the anonymity example. -/
def anonFrame : CanardCANFrame :=
  { timestamp := 100, priority := 4, kind := 0, port := 7, sourceNodeID := 200,
    payload := [1, 2, 224] }

/-! ## Bit codec

Modelled from the spec: `serialize` writes the low `bit_length` bits of the
value into the buffer starting at the given bit offset, spanning byte
boundaries, least-significant-bit-first within each byte, touching no other
bit; `deserialize` is the exact inverse with sign extension for signed
values.  The buffer is a byte list; bit `i` of the buffer is bit `i % 8` of
byte `i / 8`. -/

/-- Bit `i` of the buffer (LSB-first within each byte, per the wire
convention). -/
def bufGetBit (buf : List Nat) (i : Nat) : Bool :=
  (buf.getD (i / 8) 0).testBit (i % 8)

/-- Overwrites bit `k` of one byte, leaving every other bit of the byte
unchanged. -/
def byteWriteBit (byte k : Nat) (b : Bool) : Nat :=
  byte % 2 ^ k + (if b then 2 ^ k else 0) + 2 ^ (k + 1) * (byte / 2 ^ (k + 1))

/-- Overwrites bit `i` of the buffer; a bit outside the buffer is left
unwritten (the caller contract makes this undefined behaviour in C). -/
def bufWriteBit (buf : List Nat) (i : Nat) (b : Bool) : List Nat :=
  buf.set (i / 8) (byteWriteBit (buf.getD (i / 8) 0) (i % 8) b)

/-- Modelled from the spec: serialization of the low `len` bits of a primitive
value (given as its 64-bit two's-complement pattern) at bit offset `off`. -/
def canardDSDLPrimitiveSerialize (buf : List Nat) (off len : Nat) (v : Nat) :
    List Nat :=
  (List.range len).foldl (fun acc k => bufWriteBit acc (off + k) (v.testBit k)) buf

/-- The unsigned value read from `len` bits at bit offset `off`. -/
def canardDSDLPrimitiveDeserializeU (buf : List Nat) (off len : Nat) : Nat :=
  (List.range len).foldl
    (fun acc k => acc + (if bufGetBit buf (off + k) then 2 ^ k else 0)) 0

/-- Modelled from the spec: deserialization with sign extension when
`isSigned` and the sign bit of the field is set. -/
def canardDSDLPrimitiveDeserialize (buf : List Nat) (off len : Nat)
    (isSigned : Bool) : Int :=
  let u := canardDSDLPrimitiveDeserializeU buf off len
  if isSigned ∧ u.testBit (len - 1) then (u : Int) - 2 ^ len else (u : Int)

/-- The 64-bit two's-complement pattern of an integer, as the C caller passes
it through a pointer to a (signed or unsigned) 64-bit object. -/
def toTwos64 (x : Int) : Nat :=
  (x % 2 ^ 64).toNat

/-! ## Half-precision converter

Modelled from the spec: IEEE 754 binary32 to binary16 narrowing with round to
nearest, ties to even, and exact widening back, operating on the bit patterns
(the native float is assumed IEEE 754 binary32 per the header). -/

/-- Round-to-nearest-even division of `n` by `2 ^ sh`. -/
def rneDiv (n sh : Nat) : Nat :=
  let q := n / 2 ^ sh
  let r := n % 2 ^ sh
  if 2 ^ (sh - 1) < r ∨ (r = 2 ^ (sh - 1) ∧ q % 2 = 1) then q + 1 else q

/-- Modelled from the spec: binary32 to binary16 narrowing (round to nearest,
ties to even; overflow to infinity; NaN kind preserved with the quiet bit
set; values below the smallest binary16 subnormal underflow to signed
zero).  Input and output are bit patterns. -/
def canardDSDLFloat16Serialize (x : Nat) : Nat :=
  let s := x / 2 ^ 31 % 2
  let e := x / 2 ^ 23 % 2 ^ 8
  let m := x % 2 ^ 23
  if e = 255 then
    if m = 0 then s * 2 ^ 15 + 31 * 2 ^ 10
    else s * 2 ^ 15 + 31 * 2 ^ 10 + (2 ^ 9 ||| m / 2 ^ 13)
  else if 143 ≤ e then s * 2 ^ 15 + 31 * 2 ^ 10
  else if 113 ≤ e then s * 2 ^ 15 + (e - 112) * 2 ^ 10 + rneDiv m 13
  else if e = 0 then s * 2 ^ 15
  else s * 2 ^ 15 + rneDiv (2 ^ 23 + m) (126 - e)

/-- Modelled from the spec: exact binary16 to binary32 widening (subnormals
are normalised; NaN payloads are carried into the wide mantissa).  Input and
output are bit patterns. -/
def canardDSDLFloat16Deserialize (h : Nat) : Nat :=
  let s := h / 2 ^ 15 % 2
  let e := h / 2 ^ 10 % 2 ^ 5
  let m := h % 2 ^ 10
  if e = 0 then
    if m = 0 then s * 2 ^ 31
    else s * 2 ^ 31 + (Nat.log2 m + 103) * 2 ^ 23 +
           (m - 2 ^ Nat.log2 m) * 2 ^ (23 - Nat.log2 m)
  else if e = 31 then
    if m = 0 then s * 2 ^ 31 + 255 * 2 ^ 23
    else s * 2 ^ 31 + 255 * 2 ^ 23 + m * 2 ^ 13
  else s * 2 ^ 31 + (e + 112) * 2 ^ 23 + m * 2 ^ 13

/-- NaN predicate on binary16 bit patterns. -/
def isNaN16 (h : Nat) : Prop :=
  h / 2 ^ 10 % 2 ^ 5 = 31 ∧ h % 2 ^ 10 ≠ 0

/-- NaN predicate on binary32 bit patterns. -/
def isNaN32 (x : Nat) : Prop :=
  x / 2 ^ 23 % 2 ^ 8 = 255 ∧ x % 2 ^ 23 ≠ 0

/-! ## Bitwise auxiliary lemmas -/

theorem xor_mod_two_pow (a b n : Nat) :
    (a ^^^ b) % 2 ^ n = a % 2 ^ n ^^^ b % 2 ^ n := by
  apply Nat.eq_of_testBit_eq
  intro i
  by_cases h : i < n <;>
    simp [Nat.testBit_mod_two_pow, Nat.testBit_xor, h]

theorem xor_shiftLeft (a b n : Nat) :
    (a ^^^ b) <<< n = a <<< n ^^^ b <<< n := by
  apply Nat.eq_of_testBit_eq
  intro i
  by_cases h : i ≥ n <;>
    simp [Nat.testBit_shiftLeft, Nat.testBit_xor, h]

theorem xor_cancel_mid (x y p : Nat) : (x ^^^ p) ^^^ (y ^^^ p) = x ^^^ y := by
  rw [Nat.xor_comm y p, ← Nat.xor_assoc, Nat.xor_assoc x p p, Nat.xor_self,
    Nat.xor_zero]

theorem xor_swap_mid (a x c d : Nat) :
    (a ^^^ x) ^^^ (c ^^^ d) = (a ^^^ c) ^^^ (x ^^^ d) := by
  rw [Nat.xor_assoc, ← Nat.xor_assoc x c d, Nat.xor_comm x c,
    Nat.xor_assoc c x d, ← Nat.xor_assoc]

/-! ## CRC lemmas -/

theorem crcStep_lt (v : Nat) : crcStep v < 2 ^ 16 :=
  Nat.mod_lt _ (by norm_num)

theorem crcLoop8_eq (x : Nat) :
    crcLoop8 x =
      crcStep (crcStep (crcStep (crcStep (crcStep (crcStep (crcStep (crcStep x))))))) :=
  rfl

theorem crcLoop8_lt (x : Nat) : crcLoop8 x < 2 ^ 16 := by
  rw [crcLoop8_eq]; exact crcStep_lt _

theorem crcAddByte_lt (crc b : Nat) : crcAddByte crc b < 2 ^ 16 :=
  crcLoop8_lt _

theorem crcAdd_nil (c : Nat) : crcAdd c [] = c := rfl

theorem crcAdd_cons (c b : Nat) (bs : List Nat) :
    crcAdd c (b :: bs) = crcAdd (crcAddByte c b) bs := rfl

theorem crcAdd_append (c : Nat) (s t : List Nat) :
    crcAdd c (s ++ t) = crcAdd (crcAdd c s) t :=
  List.foldl_append _ _ _ _

theorem crcAdd_lt (c : Nat) (bs : List Nat) (h : c < 2 ^ 16) :
    crcAdd c bs < 2 ^ 16 := by
  induction bs generalizing c with
  | nil => exact h
  | cons b bs ih => exact ih _ (crcAddByte_lt _ _)

theorem crcStep_xor (a b : Nat) : crcStep (a ^^^ b) = crcStep a ^^^ crcStep b := by
  unfold crcStep
  rw [← xor_mod_two_pow, xor_swap_mid, xor_shiftLeft, Nat.testBit_xor]
  by_cases ha : a.testBit 15 <;> by_cases hb : b.testBit 15 <;>
    simp [ha, hb, Nat.xor_self, Nat.xor_zero]

theorem crcLoop8_xor (a b : Nat) :
    crcLoop8 (a ^^^ b) = crcLoop8 a ^^^ crcLoop8 b := by
  simp only [crcLoop8_eq, crcStep_xor]

theorem crcAddByte_xor (a x b y : Nat) :
    crcAddByte (a ^^^ x) (b ^^^ y) = crcAddByte a b ^^^ crcAddByte x y := by
  unfold crcAddByte
  rw [← crcLoop8_xor, ← xor_mod_two_pow, xor_shiftLeft, xor_swap_mid]

theorem crcAdd_xor (bs cs : List Nat) (h : bs.length = cs.length) (a x : Nat) :
    crcAdd (a ^^^ x) (List.zipWith (fun u v => u ^^^ v) bs cs) =
      crcAdd a bs ^^^ crcAdd x cs := by
  induction bs generalizing cs a x with
  | nil =>
    cases cs with
    | nil => rfl
    | cons c cs => simp at h
  | cons b bs ih =>
    cases cs with
    | nil => simp at h
    | cons c cs =>
      rw [List.zipWith_cons_cons, crcAdd_cons, crcAdd_cons, crcAdd_cons,
        crcAddByte_xor]
      exact ih cs (by simpa using h) _ _

theorem crc_mix_self (crc : Nat) :
    (crc ^^^ (crc >>> 8) <<< 8) % 2 ^ 16 = crc % 2 ^ 8 := by
  apply Nat.eq_of_testBit_eq
  intro i
  rw [Nat.testBit_mod_two_pow, Nat.testBit_mod_two_pow, Nat.testBit_xor,
    Nat.testBit_shiftLeft, Nat.testBit_shiftRight]
  rcases Nat.lt_or_ge i 8 with h8 | h8
  · have d1 : decide (i < 16) = true := by simp; omega
    have d2 : decide (i ≥ 8) = false := by simp; omega
    have d3 : decide (i < 8) = true := by simp [h8]
    rw [d1, d2, d3]
    simp
  · rcases Nat.lt_or_ge i 16 with h16 | h16
    · have he : 8 + (i - 8) = i := by omega
      have d1 : decide (i < 16) = true := by simp [h16]
      have d2 : decide (i ≥ 8) = true := by simp [h8]
      have d3 : decide (i < 8) = false := by simp; omega
      rw [he, d1, d2, d3]
      simp
    · have d1 : decide (i < 16) = false := by simp; omega
      have d3 : decide (i < 8) = false := by simp; omega
      rw [d1, d3]
      simp

theorem crcStep_small (y : Nat) (h : y < 2 ^ 15) : crcStep y = 2 * y := by
  unfold crcStep
  rw [Nat.testBit_lt_two_pow h]
  simp only [Bool.false_eq_true, if_false, Nat.xor_zero, Nat.shiftLeft_eq]
  have : y * 2 ^ 1 < 2 ^ 16 := by omega
  rw [Nat.mod_eq_of_lt this]
  omega

theorem crcLoop8_small (x : Nat) (h : x < 2 ^ 8) : crcLoop8 x = 256 * x := by
  rw [crcLoop8_eq, crcStep_small x (by omega), crcStep_small (2 * x) (by omega),
    crcStep_small (2 * (2 * x)) (by omega),
    crcStep_small (2 * (2 * (2 * x))) (by omega),
    crcStep_small (2 * (2 * (2 * (2 * x)))) (by omega),
    crcStep_small (2 * (2 * (2 * (2 * (2 * x))))) (by omega),
    crcStep_small (2 * (2 * (2 * (2 * (2 * (2 * x)))))) (by omega),
    crcStep_small (2 * (2 * (2 * (2 * (2 * (2 * (2 * x))))))) (by omega)]
  omega

theorem crcAddByte_high (crc : Nat) :
    crcAddByte crc (crc >>> 8) = 256 * (crc % 2 ^ 8) := by
  unfold crcAddByte
  rw [crc_mix_self]
  exact crcLoop8_small _ (Nat.mod_lt _ (by norm_num))

theorem crcLoop8_zero : crcLoop8 0 = 0 := by decide

theorem crcAddByte_low (crc : Nat) :
    crcAddByte (256 * (crc % 2 ^ 8)) (crc % 2 ^ 8) = 0 := by
  unfold crcAddByte
  have hx : (256 * (crc % 2 ^ 8) ^^^ (crc % 2 ^ 8) <<< 8) % 2 ^ 16 = 0 := by
    rw [Nat.shiftLeft_eq, Nat.mul_comm]
    simp [Nat.xor_self]
  rw [hx, crcLoop8_zero]

theorem crc_append_crc (crc : Nat) : crcAdd crc (crcBytes crc) = 0 := by
  show crcAddByte (crcAddByte crc (crc >>> 8)) (crc % 256) = 0
  rw [crcAddByte_high]
  exact crcAddByte_low crc

theorem crc_self_check (c0 : Nat) (p : List Nat) :
    crcAdd c0 (p ++ crcBytes (crcAdd c0 p)) = 0 := by
  rw [crcAdd_append]
  exact crc_append_crc _

theorem testBit15_ge (v : Nat) (h : v.testBit 15 = true) : 2 ^ 15 ≤ v := by
  rw [Nat.testBit_to_div_mod] at h
  have := of_decide_eq_true h
  omega

theorem testBit15_lt (v : Nat) (hv : v < 2 ^ 16) (h : v.testBit 15 = false) :
    v < 2 ^ 15 := by
  rw [Nat.testBit_to_div_mod] at h
  have := of_decide_eq_false h
  omega

theorem crcStep_leftInv (v : Nat) (h : v < 2 ^ 16) : crcUnstep (crcStep v) = v := by
  unfold crcStep crcUnstep
  by_cases ht : v.testBit 15
  · have hv : 2 ^ 15 ≤ v := testBit15_ge v ht
    rw [if_pos ht]
    have h1 : ((v <<< 1) ^^^ 0x1021) % 2 ^ 16 = (v <<< 1) % 2 ^ 16 ^^^ 0x1021 := by
      rw [xor_mod_two_pow]
      norm_num
    rw [h1, Nat.shiftLeft_eq]
    have heven : (v * 2 ^ 1 % 2 ^ 16) % 2 = 0 := by omega
    have hodd : ((v * 2 ^ 1 % 2 ^ 16) ^^^ 0x1021) % 2 = 1 := by
      have hb : ((v * 2 ^ 1 % 2 ^ 16) ^^^ 0x1021).testBit 0 = true := by
        rw [Nat.testBit_xor, Nat.testBit_zero, Nat.testBit_zero]
        simp
        omega
      rw [Nat.testBit_zero] at hb
      exact of_decide_eq_true hb
    rw [if_pos hodd, Nat.xor_cancel_right]
    omega
  · have hv : v < 2 ^ 15 := testBit15_lt v h (by simpa using ht)
    rw [if_neg ht]
    simp only [Nat.xor_zero, Nat.shiftLeft_eq]
    have hlt : v * 2 ^ 1 < 2 ^ 16 := by omega
    rw [Nat.mod_eq_of_lt hlt]
    have heven : ¬ v * 2 ^ 1 % 2 = 1 := by omega
    rw [if_neg heven]
    omega

theorem crcStep_inj (a b : Nat) (ha : a < 2 ^ 16) (hb : b < 2 ^ 16)
    (h : crcStep a = crcStep b) : a = b := by
  rw [← crcStep_leftInv a ha, ← crcStep_leftInv b hb, h]

theorem crcLoop8_inj (a b : Nat) (ha : a < 2 ^ 16) (hb : b < 2 ^ 16)
    (h : crcLoop8 a = crcLoop8 b) : a = b := by
  rw [crcLoop8_eq, crcLoop8_eq] at h
  exact crcStep_inj _ _ ha hb
    (crcStep_inj _ _ (crcStep_lt _) (crcStep_lt _)
      (crcStep_inj _ _ (crcStep_lt _) (crcStep_lt _)
        (crcStep_inj _ _ (crcStep_lt _) (crcStep_lt _)
          (crcStep_inj _ _ (crcStep_lt _) (crcStep_lt _)
            (crcStep_inj _ _ (crcStep_lt _) (crcStep_lt _)
              (crcStep_inj _ _ (crcStep_lt _) (crcStep_lt _)
                (crcStep_inj _ _ (crcStep_lt _) (crcStep_lt _) h)))))))

theorem crcAddByte_inj_state (a b c : Nat) (ha : a < 2 ^ 16) (hb : b < 2 ^ 16)
    (h : crcAddByte a c = crcAddByte b c) : a = b := by
  unfold crcAddByte at h
  have h2 := crcLoop8_inj _ _ (Nat.mod_lt _ (by norm_num))
    (Nat.mod_lt _ (by norm_num)) h
  rw [xor_mod_two_pow, xor_mod_two_pow, Nat.mod_eq_of_lt ha, Nat.mod_eq_of_lt hb]
    at h2
  have := congrArg (fun z => z ^^^ (c <<< 8) % 2 ^ 16) h2
  simpa [Nat.xor_cancel_right] using this

theorem crcAddByte_zz : crcAddByte 0 0 = 0 := by decide

theorem crcAddByte_zero_byte_ne (s : Nat) (hs : s < 2 ^ 16) (h0 : s ≠ 0) :
    crcAddByte s 0 ≠ 0 := by
  intro h
  exact h0 (crcAddByte_inj_state s 0 0 hs (by norm_num) (by rw [h, crcAddByte_zz]))

theorem crcAddByte_byte_ne (d : Nat) (h1 : d ≠ 0) (h2 : d < 256) :
    crcAddByte 0 d ≠ 0 := by
  intro h
  unfold crcAddByte at h
  rw [Nat.zero_xor, Nat.shiftLeft_eq] at h
  have hlt : d * 2 ^ 8 < 2 ^ 16 := by omega
  rw [Nat.mod_eq_of_lt hlt] at h
  have h0 : crcLoop8 0 = 0 := crcLoop8_zero
  have := crcLoop8_inj (d * 2 ^ 8) 0 hlt (by norm_num) (by rw [h, h0])
  omega

theorem zipWith_xor_self (l : List Nat) :
    List.zipWith (fun u v => u ^^^ v) l l = List.replicate l.length 0 := by
  induction l with
  | nil => rfl
  | cons a l ih => simp [ih, Nat.xor_self, List.replicate_succ]

theorem crcAdd_zeros_eq_zero (n : Nat) : crcAdd 0 (List.replicate n 0) = 0 := by
  induction n with
  | zero => rfl
  | succ n ih => rw [List.replicate_succ, crcAdd_cons, crcAddByte_zz]; exact ih

theorem crcAdd_zeros_ne_zero (n : Nat) (s : Nat) (hs : s < 2 ^ 16) (h0 : s ≠ 0) :
    crcAdd s (List.replicate n 0) ≠ 0 := by
  induction n generalizing s with
  | zero => exact h0
  | succ n ih =>
    rw [List.replicate_succ, crcAdd_cons]
    exact ih _ (crcAddByte_lt _ _) (crcAddByte_zero_byte_ne s hs h0)

theorem crcAdd_single_byte_detect (c : Nat) (p q : List Nat) (x y : Nat)
    (hx : x < 256) (hy : y < 256) (hxy : x ≠ y) :
    crcAdd c (p ++ x :: q) ≠ crcAdd c (p ++ y :: q) := by
  intro h
  have hzip : List.zipWith (fun u v => u ^^^ v) (p ++ x :: q) (p ++ y :: q)
      = List.replicate p.length 0 ++ (x ^^^ y) :: List.replicate q.length 0 := by
    rw [List.zipWith_append _ _ _ _ _ rfl, List.zipWith_cons_cons,
      zipWith_xor_self, zipWith_xor_self]
  have hlin := crcAdd_xor (p ++ x :: q) (p ++ y :: q) (by simp) c c
  rw [hzip, Nat.xor_self, ← h, Nat.xor_self] at hlin
  rw [crcAdd_append, crcAdd_zeros_eq_zero, crcAdd_cons] at hlin
  exact crcAdd_zeros_ne_zero _ _ (crcAddByte_lt _ _)
    (crcAddByte_byte_ne (x ^^^ y) (by rwa [Ne, Nat.xor_eq_zero])
      (Nat.xor_lt_two_pow (n := 8) (by omega) (by omega))) hlin

/-! ## TX queue lemmas -/

theorem txInsert_mem (x z : TxQueueItem) (q : List TxQueueItem) :
    z ∈ txInsert x q ↔ z = x ∨ z ∈ q := by
  induction q with
  | nil => simp [txInsert]
  | cons y ys ih =>
    by_cases h : y.priority ≤ x.priority <;> simp [txInsert, h, ih] <;> tauto

theorem txInsert_sorted (x : TxQueueItem) (q : List TxQueueItem)
    (hs : txQueueSorted q) (hb : ∀ y ∈ q, y.seq < x.seq) :
    txQueueSorted (txInsert x q) := by
  induction q with
  | nil => simp [txQueueSorted, txInsert]
  | cons y ys ih =>
    rw [txQueueSorted, List.pairwise_cons] at hs
    unfold txInsert
    by_cases h : y.priority ≤ x.priority
    · rw [if_pos h]
      rw [txQueueSorted, List.pairwise_cons]
      constructor
      · intro z hz
        rcases (txInsert_mem x z ys).mp hz with hz | hz
        · rw [hz]
          rcases Nat.lt_or_ge y.priority x.priority with hlt | hge
          · exact Or.inl hlt
          · exact Or.inr ⟨by omega, hb y (by simp)⟩
        · exact hs.1 z hz
      · exact ih hs.2 (fun z hz => hb z (by simp [hz]))
    · rw [if_neg h]
      rw [txQueueSorted, List.pairwise_cons]
      constructor
      · intro z hz
        rcases List.mem_cons.mp hz with hz | hz
        · rw [hz]; exact Or.inl (by omega)
        · rcases hs.1 z hz with hlt | ⟨heq, _⟩
          · exact Or.inl (by omega)
          · exact Or.inl (by omega)
      · exact List.pairwise_cons.mpr ⟨hs.1, hs.2⟩

theorem txEnqueue_sorted (fs : List CanardCANFrame) (q : List TxQueueItem)
    (s0 prio : Nat) (hs : txQueueSorted q) (hb : ∀ y ∈ q, y.seq < s0) :
    txQueueSorted (txEnqueue q s0 prio fs) ∧
      ∀ y ∈ txEnqueue q s0 prio fs, y.seq < s0 + fs.length := by
  induction fs generalizing q s0 with
  | nil => exact ⟨hs, by simpa using hb⟩
  | cons f fs ih =>
    have hs2 : txQueueSorted (txInsert ⟨prio, s0, f⟩ q) :=
      txInsert_sorted _ _ hs hb
    have hb2 : ∀ y ∈ txInsert ⟨prio, s0, f⟩ q, y.seq < s0 + 1 := by
      intro y hy
      rcases (txInsert_mem _ y q).mp hy with hy | hy
      · rw [hy]; exact Nat.lt_succ_self s0
      · have := hb y hy; omega
    obtain ⟨a, b⟩ := ih (txInsert ⟨prio, s0, f⟩ q) (s0 + 1) hs2 hb2
    refine ⟨a, ?_⟩
    intro y hy
    have := b y hy
    simp only [List.length_cons]
    omega

theorem canardTxPush_inv (oracle : Nat → Bool) (s : CanardInstanceState)
    (t : CanardTransfer) (h : TxInv s) : TxInv (canardTxPush oracle s t).1 := by
  unfold canardTxPush
  rcases htr : tryAlloc oracle s.allocCount
      (txFrames s.mtu t (canardLocalNodeID s)).length with ⟨ok, ids, c⟩
  rcases ok
  · simp only [htr]
    exact ⟨h.1, h.2⟩
  · simp only [htr]
    obtain ⟨a, b⟩ := txEnqueue_sorted (txFrames s.mtu t (canardLocalNodeID s))
      s.txQueue s.txSeq t.priority h.1 h.2
    exact ⟨a, b⟩

theorem canardTxPop_inv (s : CanardInstanceState) (h : TxInv s) :
    TxInv (canardTxPop s) := by
  unfold canardTxPop
  rcases hq : s.txQueue with _ | ⟨x, xs⟩
  · exact h
  · refine ⟨?_, ?_⟩
    · have := h.1
      rw [txQueueSorted, hq, List.pairwise_cons] at this
      exact this.2
    · intro y hy
      exact h.2 y (by rw [hq]; simp [hy])

theorem txRun_inv (oracle : Nat → Bool) (ops : List TxOp)
    (s : CanardInstanceState) (h : TxInv s) : TxInv (txRun oracle s ops) := by
  induction ops generalizing s with
  | nil => exact h
  | cons op ops ih =>
    rcases op with t | _ | _
    · exact ih _ (canardTxPush_inv oracle s t h)
    · exact ih _ h
    · exact ih _ (canardTxPop_inv s h)

/-- C3: after every sequence of canardTxPush, canardTxPeek and canardTxPop
operations starting from a fresh instance, the TX queue is sorted by ascending
numeric priority value with the original insertion order preserved among equal
priorities (the ordering key pairs each priority with the monotonically
increasing insertion sequence number); peek returns the queue head and pop
removes it, so frames drain in (priority, insertion-order) order; in
particular pushing priorities [Nominal, Immediate, Low, Immediate] leaves the
queue draining as [Immediate(1st), Immediate(2nd), Nominal, Low]. -/
theorem C3_tx_priority_fifo_order :
    (∀ (oracle : Nat → Bool) (ops : List TxOp),
      txQueueSorted (txRun oracle canardInitState ops).txQueue)
    ∧ (∀ s : CanardInstanceState,
        canardTxPeek s = s.txQueue.head?.map (fun x => x.frame) ∧
        (canardTxPop s).txQueue = s.txQueue.tail)
    ∧ ((txRun (fun _ => true) canardInitState
          [TxOp.push (exampleTransfer 4), TxOp.push (exampleTransfer 1),
           TxOp.push (exampleTransfer 5), TxOp.push (exampleTransfer 1)]).txQueue.map
          (fun x => (x.priority, x.seq)))
        = [(1, 1), (1, 3), (4, 0), (5, 2)] := by
  refine ⟨?_, ?_, ?_⟩
  · intro oracle ops
    exact (txRun_inv oracle ops canardInitState
      ⟨by simp [canardInitState, txQueueSorted], by simp [canardInitState]⟩).1
  · intro s
    constructor
    · rfl
    · unfold canardTxPop
      rcases hq : s.txQueue with _ | ⟨x, xs⟩ <;> simp [hq]
  · decide

theorem allocOKIDs_append (a b : List MemEvent) :
    allocOKIDs (a ++ b) = allocOKIDs a ++ allocOKIDs b := by
  simp [allocOKIDs, List.filterMap_append]

theorem freedIDs_append (a b : List MemEvent) :
    freedIDs (a ++ b) = freedIDs a ++ freedIDs b := by
  simp [freedIDs, List.filterMap_append]

theorem allocOKIDs_map_alloc (ids : List Nat) :
    allocOKIDs (ids.map (fun i => MemEvent.alloc i true)) = ids := by
  induction ids with
  | nil => rfl
  | cons i ids ih => simpa [allocOKIDs, List.filterMap_cons] using ih

theorem allocOKIDs_map_free (ids : List Nat) :
    allocOKIDs (ids.map MemEvent.free) = [] := by
  induction ids with
  | nil => rfl
  | cons i ids ih => simpa [allocOKIDs, List.filterMap_cons] using ih

theorem freedIDs_map_alloc (ids : List Nat) (b : Bool) :
    freedIDs (ids.map (fun i => MemEvent.alloc i b)) = [] := by
  induction ids with
  | nil => rfl
  | cons i ids ih => simpa [freedIDs, List.filterMap_cons] using ih

theorem freedIDs_map_free (ids : List Nat) :
    freedIDs (ids.map MemEvent.free) = ids := by
  induction ids with
  | nil => rfl
  | cons i ids ih => simpa [freedIDs, List.filterMap_cons] using ih

/-- C4: a canardTxPush call during which the external allocator fails for any
frame of the transfer aborts without partial mutation: the TX queue, the FIFO
sequence counter and the number of live allocator blocks are left exactly as
they were, and the trace shows that every block allocated for the call was
released through the free callback. -/
theorem C4_tx_alloc_failure_atomic (oracle : Nat → Bool)
    (s : CanardInstanceState) (t : CanardTransfer)
    (hfail : (tryAlloc oracle s.allocCount
        (txFrames s.mtu t (canardLocalNodeID s)).length).1 = false) :
    (canardTxPush oracle s t).1.txQueue = s.txQueue ∧
    (canardTxPush oracle s t).1.txSeq = s.txSeq ∧
    (canardTxPush oracle s t).1.liveBlocks = s.liveBlocks ∧
    allocOKIDs (canardTxPush oracle s t).2 = freedIDs (canardTxPush oracle s t).2 := by
  unfold canardTxPush
  rcases htr : tryAlloc oracle s.allocCount
      (txFrames s.mtu t (canardLocalNodeID s)).length with ⟨ok, ids, c⟩
  rw [htr] at hfail
  rcases ok
  · simp only [htr]
    refine ⟨by trivial, by trivial, by trivial, ?_⟩
    rw [allocOKIDs_append, allocOKIDs_append, freedIDs_append, freedIDs_append,
      allocOKIDs_map_alloc, allocOKIDs_map_free, freedIDs_map_alloc,
      freedIDs_map_free]
    simp [allocOKIDs, freedIDs]
  · simp at hfail

/-- Closed witness for C4 at a concrete input: an allocator that always fails
makes the push abort with the queue untouched and the allocated blocks
released. -/
theorem C4_tx_alloc_failure_atomic_witness :
    (tryAlloc (fun _ => false) canardInitState.allocCount
        (txFrames canardInitState.mtu (exampleTransfer 4)
          (canardLocalNodeID canardInitState)).length).1 = false ∧
    (canardTxPush (fun _ => false) canardInitState (exampleTransfer 4)).1.txQueue
      = canardInitState.txQueue := by
  exact ⟨by decide,
    (C4_tx_alloc_failure_atomic (fun _ => false) canardInitState
      (exampleTransfer 4) (by decide)).1⟩

/-! ## RX pipeline lemmas -/

theorem tailSOT_encode (s e g : Bool) (t : Nat) :
    tailSOT (tailByte s e g t) = s := by
  rcases s <;> rcases e <;> rcases g <;>
    simp [tailSOT, tailByte, Nat.testBit_to_div_mod] <;> omega

theorem tailEOT_encode (s e g : Bool) (t : Nat) :
    tailEOT (tailByte s e g t) = e := by
  rcases s <;> rcases e <;> rcases g <;>
    simp [tailEOT, tailByte, Nat.testBit_to_div_mod] <;> omega

theorem tailToggle_encode (s e g : Bool) (t : Nat) :
    tailToggle (tailByte s e g t) = g := by
  rcases s <;> rcases e <;> rcases g <;>
    simp [tailToggle, tailByte, Nat.testBit_to_div_mod] <;> omega

theorem tailTID_encode (s e g : Bool) (t : Nat) :
    tailTID (tailByte s e g t) = t % 32 := by
  rcases s <;> rcases e <;> rcases g <;> simp [tailTID, tailByte] <;> omega

theorem take_acc_append (X : Nat) (acc d : List Nat) :
    acc.take X ++ d.take (X - (acc.take X).length) = (acc ++ d).take X := by
  have h : X - (acc.take X).length = X - acc.length := by
    rw [List.length_take]; omega
  rw [h, List.take_append_eq_append_take]

theorem take_acc_append_min (X : Nat) (acc d : List Nat) :
    acc.take X ++ d.take (X - X ⊓ acc.length) = (acc ++ d).take X := by
  have h : X - X ⊓ acc.length = X - acc.length := by omega
  rw [h, List.take_append_eq_append_take]

theorem getLastD_concat (l : List Nat) (a : Nat) : (l ++ [a]).getLastD 0 = a := by
  simp [List.getLastD_eq_getLast?, List.getLast?_concat]

theorem mkFrames_nil (prio kind port src tid t0 : Nat) (tog sot : Bool) :
    mkFrames prio kind port src tid t0 tog sot [] = [] := rfl

theorem mkFrames_cons (prio kind port src tid t0 : Nat) (tog sot : Bool)
    (c : List Nat) (cs : List (List Nat)) :
    mkFrames prio kind port src tid t0 tog sot (c :: cs) =
      { timestamp := t0, priority := prio, kind := kind, port := port,
        sourceNodeID := src,
        payload := c ++ [tailByte sot cs.isEmpty tog (tid % 32)] } ::
        mkFrames prio kind port src tid (t0 + 1) (!tog) false cs := rfl

theorem rxSessionRun_nil (s : RxSession) : rxSessionRun s [] = (s, []) := rfl

theorem rxSessionRun_cons (s : RxSession) (fr : CanardCANFrame)
    (frs : List CanardCANFrame) :
    rxSessionRun s (fr :: frs) =
      ((rxSessionRun (rxSessionUpdate s fr).1 frs).1,
       (rxSessionUpdate s fr).2.toList ++
         (rxSessionRun (rxSessionUpdate s fr).1 frs).2) := by
  rcases h1 : rxSessionUpdate s fr with ⟨s1, tr⟩
  rcases h2 : rxSessionRun s1 frs with ⟨s2, trs⟩
  simp [rxSessionRun, h1, h2]

theorem rxSessionUpdate_mid (eot : Bool) (prio kind port src tid X T : Nat)
    (acc c : List Nat) (ts t1 : Nat) (tog : Bool) (hts : t1 - ts ≤ T) :
    rxSessionUpdate (midSession tid X T acc ts tog)
      { timestamp := t1, priority := prio, kind := kind, port := port,
        sourceNodeID := src,
        payload := c ++ [tailByte false eot tog (tid % 32)] } =
     (if eot then
        (doneSession tid X T t1,
         if crcAdd CRC_INITIAL (acc ++ c) = 0 then
           some { timestamp := t1, priority := prio, kind := kind, port := port,
                  remoteNodeID := src, transferID := tid % 32,
                  payload := (acc ++ c).take X }
         else none)
      else (midSession tid X T (acc ++ c) t1 (!tog), none)) := by
  have hto : ¬ (t1 - ts > T) := by omega
  rcases eot <;>
    simp only [rxSessionUpdate, rxSessionStep, rxSessionRestart, rxAccumulate,
      midSession, doneSession, getLastD_concat, List.dropLast_concat,
      tailSOT_encode, tailEOT_encode, tailToggle_encode, tailTID_encode,
      Nat.mod_mod_of_dvd _ (dvd_refl 32), hto, take_acc_append,
      ← crcAdd_append, ← List.length_append] <;>
    simp [take_acc_append_min, ← crcAdd_append]

theorem rxSessionUpdate_start (eot : Bool) (prio kind port src tid X T : Nat)
    (c : List Nat) (t1 : Nat) (s : RxSession) (hs1 : s.toggle = INITIAL_TOGGLE)
    (hs2 : s.payloadSizeMax = X) (hs3 : s.timeout = T)
    (hts : t1 - s.timestamp ≤ T) :
    rxSessionUpdate s
      { timestamp := t1, priority := prio, kind := kind, port := port,
        sourceNodeID := src,
        payload := c ++ [tailByte true eot INITIAL_TOGGLE (tid % 32)] } =
     (if eot then
        (doneSession tid X T t1,
         some { timestamp := t1, priority := prio, kind := kind, port := port,
                remoteNodeID := src, transferID := tid % 32,
                payload := c.take X })
      else (midSession tid X T c t1 (!INITIAL_TOGGLE), none)) := by
  have hto : ¬ (t1 - s.timestamp > s.timeout) := by omega
  have hto2 : ¬ (T < t1 - s.timestamp) := by omega
  have hto3 : ¬ (s.timeout < t1 - s.timestamp) := by omega
  rcases eot <;>
    simp only [rxSessionUpdate, rxSessionStep, rxSessionRestart, rxAccumulate,
      midSession, doneSession, getLastD_concat, List.dropLast_concat,
      tailSOT_encode, tailEOT_encode, tailToggle_encode, tailTID_encode,
      Nat.mod_mod_of_dvd _ (dvd_refl 32), hto, hto2, hto3, hs1, hs2, hs3] <;>
    simp [hs1, hs2, hs3, crcAdd_nil, hto2, hto3]

theorem rxSessionRun_cont (prio kind port src tid X T : Nat)
    (rest : List (List Nat)) :
    ∀ (acc : List Nat) (ts t1 : Nat) (tog : Bool), rest ≠ [] → 1 ≤ T →
      t1 - ts ≤ T →
    rxSessionRun (midSession tid X T acc ts tog)
      (mkFrames prio kind port src tid t1 tog false rest) =
    (doneSession tid X T (t1 + rest.length - 1),
     if crcAdd CRC_INITIAL (acc ++ rest.flatten) = 0 then
       [{ timestamp := t1 + rest.length - 1, priority := prio, kind := kind,
          port := port, remoteNodeID := src, transferID := tid % 32,
          payload := (acc ++ rest.flatten).take X }]
     else []) := by
  induction rest with
  | nil => intro acc ts t1 tog hne _ _; exact absurd rfl hne
  | cons c rest ih =>
    intro acc ts t1 tog hne hT hts
    rcases rest with _ | ⟨c2, rest2⟩
    · rw [mkFrames_cons, rxSessionRun_cons,
        rxSessionUpdate_mid (List.isEmpty []) prio kind port src tid X T acc c
          ts t1 tog hts]
      by_cases hc : crcAdd CRC_INITIAL (acc ++ c) = 0 <;>
        simp [hc, rxSessionRun_nil, mkFrames_nil, List.flatten_cons]
    · rw [mkFrames_cons, rxSessionRun_cons,
        rxSessionUpdate_mid (List.isEmpty (c2 :: rest2)) prio kind port src tid
          X T acc c ts t1 tog hts]
      simp only [List.isEmpty_cons, Bool.false_eq_true, if_false, ite_false]
      rw [ih (acc ++ c) t1 (t1 + 1) (!tog) (by simp) hT (by omega)]
      have harith : t1 + 1 + (c2 :: rest2).length - 1
          = t1 + (c :: c2 :: rest2).length - 1 := by
        simp only [List.length_cons]; omega
      have hflat : acc ++ c ++ (c2 :: rest2).flatten
          = acc ++ (c :: c2 :: rest2).flatten := by
        simp [List.flatten_cons, List.append_assoc]
      rw [harith, hflat]
      simp

theorem rxSessionRun_start (prio kind port src tid X T : Nat)
    (cs : List (List Nat)) (hcs : cs ≠ []) (hT : 1 ≤ T) (s : RxSession)
    (hs1 : s.toggle = INITIAL_TOGGLE) (hs2 : s.payloadSizeMax = X)
    (hs3 : s.timeout = T) (t1 : Nat) (hts : t1 - s.timestamp ≤ T) :
    rxSessionRun s (mkFrames prio kind port src tid t1 INITIAL_TOGGLE true cs) =
      (doneSession tid X T (t1 + cs.length - 1),
       if cs.length = 1 ∨ crcAdd CRC_INITIAL cs.flatten = 0 then
         [{ timestamp := t1 + cs.length - 1, priority := prio, kind := kind,
            port := port, remoteNodeID := src, transferID := tid % 32,
            payload := cs.flatten.take X }]
       else []) := by
  rcases cs with _ | ⟨c, rest⟩
  · exact absurd rfl hcs
  · rcases rest with _ | ⟨c2, rest2⟩
    · rw [mkFrames_cons, rxSessionRun_cons,
        rxSessionUpdate_start (List.isEmpty []) prio kind port src tid X T c t1
          s hs1 hs2 hs3 hts]
      simp [rxSessionRun_nil, mkFrames_nil, List.flatten_cons]
    · rw [mkFrames_cons, rxSessionRun_cons,
        rxSessionUpdate_start (List.isEmpty (c2 :: rest2)) prio kind port src
          tid X T c t1 s hs1 hs2 hs3 hts]
      simp only [List.isEmpty_cons, Bool.false_eq_true, if_false, ite_false]
      rw [rxSessionRun_cont prio kind port src tid X T (c2 :: rest2) c t1
        (t1 + 1) (!INITIAL_TOGGLE) (by simp) hT (by omega)]
      have harith : t1 + 1 + (c2 :: rest2).length - 1
          = t1 + (c :: c2 :: rest2).length - 1 := by
        simp only [List.length_cons]; omega
      rw [harith]
      by_cases hc : crcAdd CRC_INITIAL (c ++ (c2 :: rest2).flatten) = 0
      · rw [if_pos hc, if_pos (Or.inr (by simpa [List.flatten_cons] using hc))]
        simp [List.flatten_cons]
      · rw [if_neg hc, if_neg (by
          rintro (h1 | h2)
          · simp at h1
          · exact hc (by simpa [List.flatten_cons] using h2))]
        simp

theorem rxSessionUpdate_fresh (f : CanardRxFilter) (fr : CanardCANFrame) :
    rxSessionUpdate (freshSession f fr) fr = rxSessionStep (freshSession f fr) fr := by
  unfold rxSessionUpdate freshSession
  simp

theorem rxFeed_nil (f : CanardRxFilter) (oracle : Nat → Bool)
    (st : CanardInstanceState) : rxFeed f oracle st [] = (st, []) := rfl

theorem rxFeed_cons (f : CanardRxFilter) (oracle : Nat → Bool)
    (st : CanardInstanceState) (fr : CanardCANFrame)
    (frs : List CanardCANFrame) :
    rxFeed f oracle st (fr :: frs) =
      ((rxFeed f oracle (canardRxPush f oracle st fr).1 frs).1,
       (canardRxPush f oracle st fr).2.1.toList ++
         (rxFeed f oracle (canardRxPush f oracle st fr).1 frs).2) := by
  rcases h1 : canardRxPush f oracle st fr with ⟨s1, tr, ev⟩
  rcases h2 : rxFeed f oracle s1 frs with ⟨s2, trs⟩
  simp [rxFeed, h1, h2]

theorem canardRxPush_existing (f : CanardRxFilter) (oracle : Nat → Bool)
    (st : CanardInstanceState) (fr : CanardCANFrame) (key : RxKey)
    (sess : RxSession) (hkey : key = (fr.sourceNodeID, fr.port, fr.kind))
    (hsess : st.rxSessions = [(key, sess)])
    (hne : fr.payload ≠ []) (hsrc : fr.sourceNodeID ≤ CANARD_NODE_ID_MAX)
    (hT : (f fr.port fr.kind fr.sourceNodeID).transferIDTimeout ≠ 0) :
    canardRxPush f oracle st fr =
      ({ st with rxSessions := [(key, (rxSessionUpdate sess fr).1)] },
       (rxSessionUpdate sess fr).2, []) := by
  rcases hupd : rxSessionUpdate sess fr with ⟨s2, tr⟩
  unfold canardRxPush
  rw [if_neg (by simpa using hne)]
  rw [if_neg (by
    unfold CANARD_NODE_ID_MAX at hsrc ⊢
    omega)]
  rw [if_neg hT, hsess, hkey]
  simp [List.lookup, updateAssoc, hupd]

theorem canardRxPush_create (f : CanardRxFilter) (oracle : Nat → Bool)
    (st : CanardInstanceState) (fr : CanardCANFrame) (key : RxKey)
    (hkey : key = (fr.sourceNodeID, fr.port, fr.kind))
    (hsess : st.rxSessions = [])
    (hne : fr.payload ≠ []) (hsrc : fr.sourceNodeID ≤ CANARD_NODE_ID_MAX)
    (hT : (f fr.port fr.kind fr.sourceNodeID).transferIDTimeout ≠ 0)
    (hor : oracle st.allocCount = true) :
    canardRxPush f oracle st fr =
      ({ st with
          rxSessions := [(key, (rxSessionStep (freshSession f fr) fr).1)],
          allocCount := st.allocCount + 1,
          liveBlocks := st.liveBlocks + 1 },
       (rxSessionStep (freshSession f fr) fr).2,
       [MemEvent.alloc st.allocCount true]) := by
  rcases hupd : rxSessionStep (freshSession f fr) fr with ⟨s2, tr⟩
  unfold canardRxPush
  rw [if_neg (by simpa using hne)]
  rw [if_neg (by
    unfold CANARD_NODE_ID_MAX at hsrc ⊢
    omega)]
  rw [if_neg hT, hsess, hkey]
  simp [List.lookup, hor, hupd]

theorem rxFeed_existing (f : CanardRxFilter) (oracle : Nat → Bool) (key : RxKey)
    (frames : List CanardCANFrame) :
    ∀ (st : CanardInstanceState) (sess : RxSession),
      st.rxSessions = [(key, sess)] →
      (∀ fr ∈ frames, fr.payload ≠ [] ∧
        key = (fr.sourceNodeID, fr.port, fr.kind) ∧
        fr.sourceNodeID ≤ CANARD_NODE_ID_MAX ∧
        (f fr.port fr.kind fr.sourceNodeID).transferIDTimeout ≠ 0) →
      rxFeed f oracle st frames =
        ({ st with rxSessions := [(key, (rxSessionRun sess frames).1)] },
         (rxSessionRun sess frames).2) := by
  induction frames with
  | nil =>
    intro st sess hsess _
    rw [rxFeed_nil, rxSessionRun_nil]
    rw [← hsess]
  | cons fr frs ih =>
    intro st sess hsess hall
    obtain ⟨h1, h2, h3, h4⟩ := hall fr (by simp)
    rw [rxFeed_cons, rxSessionRun_cons,
      canardRxPush_existing f oracle st fr key sess h2 hsess h1 h3 h4]
    rw [ih { st with rxSessions := [(key, (rxSessionUpdate sess fr).1)] }
      (rxSessionUpdate sess fr).1 (by simp)
      (fun g hg => hall g (by simp [hg]))]

theorem mkFrames_mem_fields (prio kind port src tid : Nat) (cs : List (List Nat)) :
    ∀ (t0 : Nat) (tog sot : Bool) (fr : CanardCANFrame),
      fr ∈ mkFrames prio kind port src tid t0 tog sot cs →
      fr.port = port ∧ fr.kind = kind ∧ fr.sourceNodeID = src ∧
        fr.payload ≠ [] := by
  induction cs with
  | nil => intro t0 tog sot fr h; simp [mkFrames_nil] at h
  | cons c rest ih =>
    intro t0 tog sot fr h
    rw [mkFrames_cons] at h
    rcases List.mem_cons.mp h with h | h
    · rw [h]
      exact ⟨rfl, rfl, rfl, by simp⟩
    · exact ih _ _ _ fr h

theorem rxFeed_fresh_transfer (f : CanardRxFilter) (oracle : Nat → Bool)
    (st0 : CanardInstanceState) (prio kind port src tid t0 X T : Nat)
    (cs : List (List Nat)) (hcs : cs ≠ []) (hT : 1 ≤ T)
    (hsrc : src ≤ CANARD_NODE_ID_MAX)
    (hf : f port kind src = ⟨T, X⟩)
    (hsess : st0.rxSessions = []) (hor : oracle st0.allocCount = true) :
    rxFeed f oracle st0
        (mkFrames prio kind port src tid t0 INITIAL_TOGGLE true cs) =
      ({ st0 with
          rxSessions := [((src, port, kind),
            doneSession tid X T (t0 + cs.length - 1))],
          allocCount := st0.allocCount + 1,
          liveBlocks := st0.liveBlocks + 1 },
       if cs.length = 1 ∨ crcAdd CRC_INITIAL cs.flatten = 0 then
         [{ timestamp := t0 + cs.length - 1, priority := prio, kind := kind,
            port := port, remoteNodeID := src, transferID := tid % 32,
            payload := cs.flatten.take X }]
       else []) := by
  rcases cs with _ | ⟨c, rest⟩
  · exact absurd rfl hcs
  have hrun := rxSessionRun_start prio kind port src tid X T (c :: rest)
    (by simp) hT
    (freshSession f
      { timestamp := t0, priority := prio, kind := kind, port := port,
        sourceNodeID := src,
        payload := c ++ [tailByte true rest.isEmpty INITIAL_TOGGLE (tid % 32)] })
    rfl (by simp [freshSession, hf]) (by simp [freshSession, hf]) t0
    (by simp [freshSession])
  rw [mkFrames_cons, rxSessionRun_cons, rxSessionUpdate_fresh] at hrun
  rw [Prod.mk.injEq] at hrun
  obtain ⟨h1, h2⟩ := hrun
  rw [mkFrames_cons, rxFeed_cons]
  rw [canardRxPush_create f oracle st0
    { timestamp := t0, priority := prio, kind := kind, port := port,
      sourceNodeID := src,
      payload := c ++ [tailByte true rest.isEmpty INITIAL_TOGGLE (tid % 32)] }
    (src, port, kind) rfl hsess (by simp)
    (by simpa using hsrc) (by simp [hf]; omega) hor]
  rw [rxFeed_existing f oracle (src, port, kind)
    (mkFrames prio kind port src tid (t0 + 1) (!INITIAL_TOGGLE) false rest)
    { st0 with
        rxSessions := [((src, port, kind),
          (rxSessionStep
            (freshSession f
              { timestamp := t0, priority := prio, kind := kind, port := port,
                sourceNodeID := src,
                payload := c ++
                  [tailByte true rest.isEmpty INITIAL_TOGGLE (tid % 32)] })
            { timestamp := t0, priority := prio, kind := kind, port := port,
              sourceNodeID := src,
              payload := c ++
                [tailByte true rest.isEmpty INITIAL_TOGGLE (tid % 32)] }).1)],
        allocCount := st0.allocCount + 1,
        liveBlocks := st0.liveBlocks + 1 }
    (rxSessionStep
      (freshSession f
        { timestamp := t0, priority := prio, kind := kind, port := port,
          sourceNodeID := src,
          payload := c ++
            [tailByte true rest.isEmpty INITIAL_TOGGLE (tid % 32)] })
      { timestamp := t0, priority := prio, kind := kind, port := port,
        sourceNodeID := src,
        payload := c ++
          [tailByte true rest.isEmpty INITIAL_TOGGLE (tid % 32)] }).1
    rfl
    (by
      intro g hg
      obtain ⟨a, b, d, e⟩ := mkFrames_mem_fields prio kind port src tid rest _
        _ _ g hg
      refine ⟨e, by rw [a, b, d], ?_, ?_⟩
      · rw [d]; exact hsrc
      · rw [a, b, d]; simp [hf]; omega)]
  rw [h1, h2]

/-- C1: the transmit pipeline computes the CRC-16/CCITT-FALSE checksum
(polynomial 0x1021, initial value 0xFFFF, no reflection) over the full
untruncated payload and appends it big-endian as the final two bytes of the
logical byte stream of every multi-frame transfer before fragmentation, and
that stream then satisfies the self-checking property (accumulating over
stream plus suffix yields zero); a single-frame transfer's stream carries no
CRC suffix; on reception the CRC is accumulated over every received payload
byte including the trailing CRC bytes and a multi-frame transfer is emitted
by canardRxPush if and only if the accumulated value is zero after the final
frame, while a single-frame transfer is emitted with no CRC requirement. -/
theorem C1_transfer_crc_framing :
    (∀ (mtu : Nat) (p : List Nat), mtu < p.length + 1 →
      txByteStream mtu p =
        p ++ [crcAdd CRC_INITIAL p >>> 8, crcAdd CRC_INITIAL p % 256] ∧
      crcAdd CRC_INITIAL (txByteStream mtu p) = 0)
    ∧ (∀ (mtu : Nat) (p : List Nat), p.length + 1 ≤ mtu →
        txByteStream mtu p = p)
    ∧ (∀ (f : CanardRxFilter) (oracle : Nat → Bool)
        (st0 : CanardInstanceState) (prio kind port src tid t0 X T : Nat)
        (cs : List (List Nat)),
        2 ≤ cs.length → 1 ≤ T → src ≤ CANARD_NODE_ID_MAX →
        f port kind src = ⟨T, X⟩ → st0.rxSessions = [] →
        oracle st0.allocCount = true →
        ((rxFeed f oracle st0
            (mkFrames prio kind port src tid t0 INITIAL_TOGGLE true cs)).2 ≠ []
          ↔ crcAdd CRC_INITIAL cs.flatten = 0))
    ∧ (∀ (f : CanardRxFilter) (oracle : Nat → Bool)
        (st0 : CanardInstanceState) (prio kind port src tid t0 X T : Nat)
        (c : List Nat),
        1 ≤ T → src ≤ CANARD_NODE_ID_MAX → f port kind src = ⟨T, X⟩ →
        st0.rxSessions = [] → oracle st0.allocCount = true →
        (rxFeed f oracle st0
            (mkFrames prio kind port src tid t0 INITIAL_TOGGLE true [c])).2 =
          [{ timestamp := t0, priority := prio, kind := kind, port := port,
             remoteNodeID := src, transferID := tid % 32,
             payload := c.take X }]) := by
  refine ⟨?_, ?_, ?_, ?_⟩
  · intro mtu p h
    unfold txByteStream
    rw [if_neg (by omega)]
    exact ⟨rfl, crc_self_check CRC_INITIAL p⟩
  · intro mtu p h
    unfold txByteStream
    rw [if_pos h]
  · intro f oracle st0 prio kind port src tid t0 X T cs hlen hT hsrc hf hs ho
    rw [rxFeed_fresh_transfer f oracle st0 prio kind port src tid t0 X T cs
      (by intro h; rw [h] at hlen; simp at hlen) hT hsrc hf hs ho]
    have h1 : ¬ cs.length = 1 := by omega
    by_cases hc : crcAdd CRC_INITIAL cs.flatten = 0 <;> simp [hc, h1]
  · intro f oracle st0 prio kind port src tid t0 X T c hT hsrc hf hs ho
    rw [rxFeed_fresh_transfer f oracle st0 prio kind port src tid t0 X T [c]
      (by simp) hT hsrc hf hs ho]
    simp

/-- Closed witness for C1 at concrete inputs: payload [1, 2, 3] with MTU 2 is
multi-frame and gets the big-endian CRC suffix with the self-check property,
and a concrete two-chunk reception run instantiates the emission criterion. -/
theorem C1_transfer_crc_framing_witness :
    (txByteStream 2 [1, 2, 3] =
        [1, 2, 3] ++ [crcAdd CRC_INITIAL [1, 2, 3] >>> 8,
          crcAdd CRC_INITIAL [1, 2, 3] % 256] ∧
      crcAdd CRC_INITIAL (txByteStream 2 [1, 2, 3]) = 0)
    ∧ ((rxFeed (exampleFilter 10 8) (fun _ => true) canardInitState
          (mkFrames 4 0 7 5 0 100 INITIAL_TOGGLE true [[1], [2]])).2 ≠ []
        ↔ crcAdd CRC_INITIAL ([[1], [2]] : List (List Nat)).flatten = 0) :=
  ⟨C1_transfer_crc_framing.1 2 [1, 2, 3] (by decide),
   C1_transfer_crc_framing.2.2.1 (exampleFilter 10 8) (fun _ => true)
     canardInitState 4 0 7 5 0 100 8 10 [[1], [2]] (by decide) (by decide)
     (by decide) rfl rfl rfl⟩

/-- C2: for a session whose accept-filter admits at most X payload bytes, a
reassembled multi-frame transfer stores exactly min(total bytes received, X)
payload bytes (the first X bytes of the received stream), while the CRC is
accumulated and checked over the full untruncated stream; corrupting a single
byte of the original payload — even one beyond the storage cap — changes the
accumulated CRC to a nonzero value and therefore prevents emission. -/
theorem C2_truncation_and_integrity :
    ∀ (f : CanardRxFilter) (oracle : Nat → Bool) (st0 : CanardInstanceState)
      (prio kind port src tid t0 X T : Nat),
      1 ≤ T → src ≤ CANARD_NODE_ID_MAX → f port kind src = ⟨T, X⟩ →
      st0.rxSessions = [] → oracle st0.allocCount = true →
      (∀ (cs : List (List Nat)), 2 ≤ cs.length →
        (rxFeed f oracle st0
            (mkFrames prio kind port src tid t0 INITIAL_TOGGLE true cs)).2 =
          (if crcAdd CRC_INITIAL cs.flatten = 0 then
            [{ timestamp := t0 + cs.length - 1, priority := prio, kind := kind,
               port := port, remoteNodeID := src, transferID := tid % 32,
               payload := cs.flatten.take X }]
           else []) ∧
        (cs.flatten.take X).length = min cs.flatten.length X)
      ∧ (∀ (p1 p2 : List Nat) (x y : Nat) (cs : List (List Nat)),
          x < 256 → y < 256 → x ≠ y → 2 ≤ cs.length →
          cs.flatten = (p1 ++ y :: p2) ++
            crcBytes (crcAdd CRC_INITIAL (p1 ++ x :: p2)) →
          (rxFeed f oracle st0
              (mkFrames prio kind port src tid t0 INITIAL_TOGGLE true cs)).2
            = []) := by
  intro f oracle st0 prio kind port src tid t0 X T hT hsrc hf hs ho
  constructor
  · intro cs hlen
    constructor
    · rw [rxFeed_fresh_transfer f oracle st0 prio kind port src tid t0 X T cs
        (by intro h; rw [h] at hlen; simp at hlen) hT hsrc hf hs ho]
      have h1 : ¬ cs.length = 1 := by omega
      by_cases hc : crcAdd CRC_INITIAL cs.flatten = 0 <;> simp [hc, h1]
    · rw [List.length_take]
      omega
  · intro p1 p2 x y cs hx hy hxy hlen hflat
    rw [rxFeed_fresh_transfer f oracle st0 prio kind port src tid t0 X T cs
      (by intro h; rw [h] at hlen; simp at hlen) hT hsrc hf hs ho]
    have h1 : ¬ cs.length = 1 := by omega
    have hbad : crcAdd CRC_INITIAL cs.flatten ≠ 0 := by
      rw [hflat]
      have hgood : crcAdd CRC_INITIAL
          ((p1 ++ x :: p2) ++ crcBytes (crcAdd CRC_INITIAL (p1 ++ x :: p2)))
          = 0 := crc_self_check CRC_INITIAL (p1 ++ x :: p2)
      have hre1 : (p1 ++ x :: p2) ++
          crcBytes (crcAdd CRC_INITIAL (p1 ++ x :: p2)) =
          p1 ++ x :: (p2 ++ crcBytes (crcAdd CRC_INITIAL (p1 ++ x :: p2))) := by
        simp [List.append_assoc]
      have hre2 : (p1 ++ y :: p2) ++
          crcBytes (crcAdd CRC_INITIAL (p1 ++ x :: p2)) =
          p1 ++ y :: (p2 ++ crcBytes (crcAdd CRC_INITIAL (p1 ++ x :: p2))) := by
        simp [List.append_assoc]
      rw [hre2]
      rw [hre1] at hgood
      intro hbad0
      exact crcAdd_single_byte_detect CRC_INITIAL p1
        (p2 ++ crcBytes (crcAdd CRC_INITIAL (p1 ++ x :: p2))) y x hy hx
        (fun h => hxy h.symm) (by rw [hbad0, hgood])
    simp [hbad, h1]

/-- Closed witness for C2 at a concrete input: a two-chunk stream carrying
payload [1] corrupted to [2] (CRC computed for [1]) is not emitted, and the
stored length rule is instantiated. -/
theorem C2_truncation_and_integrity_witness :
    (rxFeed (exampleFilter 10 1) (fun _ => true) canardInitState
        (mkFrames 4 0 7 5 0 100 INITIAL_TOGGLE true
          [[2], crcBytes (crcAdd CRC_INITIAL [1])])).2 = [] :=
  (C2_truncation_and_integrity (exampleFilter 10 1) (fun _ => true)
      canardInitState 4 0 7 5 0 100 1 10 (by decide) (by decide) rfl rfl
      rfl).2
    [] [] 1 2 [[2], crcBytes (crcAdd CRC_INITIAL [1])] (by decide) (by decide)
    (by decide) (by decide) (by decide)

theorem rxSessionStep_start (eot : Bool) (prio kind port src tid X T : Nat)
    (c : List Nat) (t1 : Nat) (s : RxSession) (hs1 : s.toggle = INITIAL_TOGGLE)
    (hs2 : s.payloadSizeMax = X) (hs3 : s.timeout = T) :
    rxSessionStep s
      { timestamp := t1, priority := prio, kind := kind, port := port,
        sourceNodeID := src,
        payload := c ++ [tailByte true eot INITIAL_TOGGLE (tid % 32)] } =
     (if eot then
        (doneSession tid X T t1,
         some { timestamp := t1, priority := prio, kind := kind, port := port,
                remoteNodeID := src, transferID := tid % 32,
                payload := c.take X })
      else (midSession tid X T c t1 (!INITIAL_TOGGLE), none)) := by
  rcases eot <;>
    simp only [rxSessionStep, rxSessionRestart, rxAccumulate, midSession,
      doneSession, getLastD_concat, List.dropLast_concat, tailSOT_encode,
      tailEOT_encode, tailToggle_encode, tailTID_encode,
      Nat.mod_mod_of_dvd _ (dvd_refl 32), hs1, hs2, hs3] <;>
    simp [hs1, hs2, hs3, crcAdd_nil]

theorem rxSessionUpdate_timeout (s : RxSession) (fr : CanardCANFrame)
    (hto : s.timeout < fr.timestamp - s.timestamp) :
    rxSessionUpdate s fr =
      rxSessionStep (rxSessionRestart s (tailTID (fr.payload.getLastD 0))) fr := by
  have hto2 : fr.timestamp - s.timestamp > s.timeout := hto
  simp only [rxSessionUpdate, hto2, if_true, ite_true]

theorem rxSessionRestart_idem (s : RxSession) (tid : Nat) :
    rxSessionRestart (rxSessionRestart s tid) tid = rxSessionRestart s tid := rfl

theorem rxSessionUpdate_drop (s : RxSession) (fr : CanardCANFrame)
    (hto : fr.timestamp - s.timestamp ≤ s.timeout)
    (h : tailToggle (fr.payload.getLastD 0) ≠ s.toggle ∨
      (¬ tailSOT (fr.payload.getLastD 0) ∧
        tailTID (fr.payload.getLastD 0) ≠ s.transferID)) :
    rxSessionUpdate s fr = (s, none) := by
  have hto2 : ¬ (fr.timestamp - s.timestamp > s.timeout) := by omega
  rcases h with h | ⟨h1, h2⟩
  · simp only [List.getLastD_eq_getLast?] at h
    simp [rxSessionUpdate, rxSessionStep, hto2, h]
  · by_cases htog : tailToggle (fr.payload.getLastD 0) ≠ s.toggle
    · simp only [List.getLastD_eq_getLast?] at htog
      simp [rxSessionUpdate, rxSessionStep, hto2, htog]
    · have h1b : tailSOT (fr.payload.getLastD 0) = false := by
        simpa using h1
      simp only [List.getLastD_eq_getLast?] at htog h1b h2
      simp [rxSessionUpdate, rxSessionStep, hto2, htog, h1b, h2]

theorem rxSessionUpdate_accept_cont (s : RxSession) (fr : CanardCANFrame)
    (hto : fr.timestamp - s.timestamp ≤ s.timeout)
    (htog : tailToggle (fr.payload.getLastD 0) = s.toggle)
    (hsot : tailSOT (fr.payload.getLastD 0) = false)
    (heot : tailEOT (fr.payload.getLastD 0) = false)
    (htid : tailTID (fr.payload.getLastD 0) = s.transferID) :
    rxSessionUpdate s fr =
      ({ rxAccumulate s fr.payload.dropLast fr.timestamp with
          toggle := !s.toggle }, none) := by
  have hto2 : ¬ (fr.timestamp - s.timestamp > s.timeout) := by omega
  simp only [List.getLastD_eq_getLast?] at htog hsot heot htid
  simp [rxSessionUpdate, rxSessionStep, rxAccumulate, hto2, htog, hsot, heot,
    htid]

/-- C6 counterexample: replaying an already-accepted non-final frame CAN
perturb the in-progress reassembly.  After frames 1 and 2 of a transfer are
accepted, the expected toggle equals the toggle of frame 1 again, so a replay
of frame 1 (an already-accepted non-final frame, same transfer-ID, same
toggle) passes the toggle check, its start-of-transfer flag resets the
accumulation, and the session buffer changes from [1, 2, 3, 4] to [1, 2]; no
transfer is emitted, but the claimed non-perturbation is violated. -/
theorem C6_counterexample_replay_perturbs :
    (rxFeed (exampleFilter 1000 100) (fun _ => true) canardInitState
        [replayFrame1, replayFrame2]).1.rxSessions.map
        (fun kv => kv.2.payload) = [[1, 2, 3, 4]] ∧
    (rxFeed (exampleFilter 1000 100) (fun _ => true) canardInitState
        [replayFrame1, replayFrame2, replayFrame1]).1.rxSessions.map
        (fun kv => kv.2.payload) = [[1, 2]] ∧
    (rxFeed (exampleFilter 1000 100) (fun _ => true) canardInitState
        [replayFrame1, replayFrame2, replayFrame1]).2 = [] := by
  refine ⟨by decide, by decide, by decide⟩

/-- C6 (amended): within the transfer-ID timeout, a frame whose toggle does
not match the session's expected toggle, or a continuation frame whose
transfer-ID does not match the in-progress transfer, is dropped by
canardRxPush with the instance state left exactly unchanged and nothing
emitted; and immediately replaying the most recently accepted non-final
continuation frame is dropped the same way (its toggle no longer matches,
the toggle having advanced on acceptance), so it neither perturbs the
reassembly nor causes an emission.  (Replaying an older accepted frame whose
toggle happens to match the current expectation is accepted and alters the
accumulation; see the counterexample.) -/
theorem C6_mismatch_drop (f : CanardRxFilter) (oracle : Nat → Bool)
    (st : CanardInstanceState) (key : RxKey) (sess : RxSession)
    (fr : CanardCANFrame)
    (hkey : key = (fr.sourceNodeID, fr.port, fr.kind))
    (hsess : st.rxSessions = [(key, sess)])
    (hne : fr.payload ≠ []) (hsrc : fr.sourceNodeID ≤ CANARD_NODE_ID_MAX)
    (hT : (f fr.port fr.kind fr.sourceNodeID).transferIDTimeout ≠ 0)
    (hto : fr.timestamp - sess.timestamp ≤ sess.timeout) :
    ((tailToggle (fr.payload.getLastD 0) ≠ sess.toggle ∨
      (¬ tailSOT (fr.payload.getLastD 0) ∧
        tailTID (fr.payload.getLastD 0) ≠ sess.transferID)) →
      canardRxPush f oracle st fr = (st, none, []))
    ∧ (tailToggle (fr.payload.getLastD 0) = sess.toggle →
       tailSOT (fr.payload.getLastD 0) = false →
       tailEOT (fr.payload.getLastD 0) = false →
       tailTID (fr.payload.getLastD 0) = sess.transferID →
       canardRxPush f oracle (canardRxPush f oracle st fr).1 fr =
         ((canardRxPush f oracle st fr).1, none, [])) := by
  constructor
  · intro h
    rw [canardRxPush_existing f oracle st fr key sess hkey hsess hne hsrc hT,
      rxSessionUpdate_drop sess fr hto h]
    rw [← hsess]
  · intro htog hsot heot htid
    rw [canardRxPush_existing f oracle st fr key sess hkey hsess hne hsrc hT,
      rxSessionUpdate_accept_cont sess fr hto htog hsot heot htid]
    rw [canardRxPush_existing f oracle _ fr key
      { rxAccumulate sess fr.payload.dropLast fr.timestamp with
          toggle := !sess.toggle } hkey (by simp) hne hsrc hT]
    rw [rxSessionUpdate_drop _ fr (by simp [rxAccumulate])
      (Or.inl (by rw [htog]; simp [rxAccumulate]))]

/-- Closed witness for C6 (amended) at a concrete input: a frame whose toggle
bit (set) does not match the session's expected toggle (clear) is dropped
with the state unchanged. -/
theorem C6_mismatch_drop_witness :
    canardRxPush (exampleFilter 1000 10) (fun _ => true)
        { canardInitState with rxSessions := [((5, 7, 0), dupSession)] }
        replayFrame1 =
      ({ canardInitState with rxSessions := [((5, 7, 0), dupSession)] },
       none, []) :=
  (C6_mismatch_drop (exampleFilter 1000 10) (fun _ => true)
      { canardInitState with rxSessions := [((5, 7, 0), dupSession)] }
      (5, 7, 0) dupSession replayFrame1 rfl rfl (by decide) (by decide)
      (by decide) (by decide)).1 (Or.inl (by decide))

/-- C7: when the inbound frame's timestamp minus the session's last-frame
timestamp exceeds the session's configured transfer-ID timeout, canardRxPush
behaves exactly as if the session had first been restarted (in-progress
accumulation discarded, transfer-ID taken from the frame, toggle reset); in
particular a start-of-transfer frame with the initial toggle begins fresh
accumulation from that frame alone, whatever was accumulated before. -/
theorem C7_timeout_resynchronization (f : CanardRxFilter) (oracle : Nat → Bool)
    (st : CanardInstanceState) (key : RxKey) (sess : RxSession)
    (fr : CanardCANFrame)
    (hkey : key = (fr.sourceNodeID, fr.port, fr.kind))
    (hsess : st.rxSessions = [(key, sess)])
    (hne : fr.payload ≠ []) (hsrc : fr.sourceNodeID ≤ CANARD_NODE_ID_MAX)
    (hT : (f fr.port fr.kind fr.sourceNodeID).transferIDTimeout ≠ 0)
    (hto : sess.timeout < fr.timestamp - sess.timestamp) :
    (canardRxPush f oracle st fr =
      canardRxPush f oracle
        { st with rxSessions := [(key,
            rxSessionRestart sess (tailTID (fr.payload.getLastD 0)))] } fr)
    ∧ (∀ (prio kind2 port2 src2 tid t1 : Nat) (c : List Nat),
        fr = { timestamp := t1, priority := prio, kind := kind2,
               port := port2, sourceNodeID := src2,
               payload := c ++
                 [tailByte true false INITIAL_TOGGLE (tid % 32)] } →
        canardRxPush f oracle st fr =
          ({ st with rxSessions := [(key,
              midSession tid sess.payloadSizeMax sess.timeout c t1
                (!INITIAL_TOGGLE))] }, none, [])) := by
  constructor
  · rw [canardRxPush_existing f oracle st fr key sess hkey hsess hne hsrc hT]
    rw [canardRxPush_existing f oracle _ fr key
      (rxSessionRestart sess (tailTID (fr.payload.getLastD 0))) hkey (by simp)
      hne hsrc hT]
    have heq : rxSessionUpdate sess fr =
        rxSessionUpdate
          (rxSessionRestart sess (tailTID (fr.payload.getLastD 0))) fr := by
      rw [rxSessionUpdate_timeout sess fr hto,
        rxSessionUpdate_timeout _ fr (by simp [rxSessionRestart]; exact hto),
        rxSessionRestart_idem]
    rw [heq]
  · intro prio kind2 port2 src2 tid t1 c hfr
    subst hfr
    rw [canardRxPush_existing f oracle st _ key sess hkey hsess hne hsrc hT]
    rw [rxSessionUpdate_timeout sess _ hto]
    rw [rxSessionStep_start false prio kind2 port2 src2 tid
      sess.payloadSizeMax sess.timeout c t1 _ (by simp [rxSessionRestart])
      (by simp [rxSessionRestart]) (by simp [rxSessionRestart])]
    simp

/-- Closed witness for C7 at a concrete input: a stale session receiving a
start-of-transfer frame 100 time units later (timeout 50) is processed
exactly as the restarted session, and the fresh accumulation holds only the
bytes of the new frame. -/
theorem C7_timeout_resynchronization_witness :
    canardRxPush (exampleFilter 50 100) (fun _ => true)
        { canardInitState with rxSessions := [((5, 7, 0), staleSession)] }
        resyncFrame =
      canardRxPush (exampleFilter 50 100) (fun _ => true)
        { canardInitState with rxSessions := [((5, 7, 0),
            rxSessionRestart staleSession
              (tailTID (resyncFrame.payload.getLastD 0)))] } resyncFrame :=
  (C7_timeout_resynchronization (exampleFilter 50 100) (fun _ => true)
      { canardInitState with rxSessions := [((5, 7, 0), staleSession)] }
      (5, 7, 0) staleSession resyncFrame rfl rfl (by decide) (by decide)
      (by decide) (by decide)).1

theorem canardRxPush_alloc_fail (f : CanardRxFilter) (oracle : Nat → Bool)
    (st : CanardInstanceState) (fr : CanardCANFrame)
    (hsess : st.rxSessions = [])
    (hne : fr.payload ≠ []) (hsrc : fr.sourceNodeID ≤ CANARD_NODE_ID_MAX)
    (hT : (f fr.port fr.kind fr.sourceNodeID).transferIDTimeout ≠ 0)
    (hor : oracle st.allocCount = false) :
    canardRxPush f oracle st fr =
      ({ st with allocCount := st.allocCount + 1 }, none,
       [MemEvent.alloc st.allocCount false]) := by
  unfold canardRxPush
  rw [if_neg (by simpa using hne)]
  rw [if_neg (by
    unfold CANARD_NODE_ID_MAX at hsrc ⊢
    omega)]
  rw [if_neg hT, hsess]
  simp [List.lookup, hor]

/-- C9 counterexample: per the header, canardTxPush returns `void` and
canardRxPush returns only a CanardTransfer; modelled faithfully, a push whose
allocation fails yields nothing but the unchanged queue, and a canardRxPush
whose session allocation fails returns exactly the same empty result (`none`)
as a successful call that merely consumed a non-final frame — the allocator
failure is a silent no-op to the caller, not an explicit failure result of
the triggering operation. -/
theorem C9_counterexample_no_failure_surface :
    (canardTxPush (fun _ => false) canardInitState
      (exampleTransfer 4)).1.txQueue = [] ∧
    (canardRxPush (exampleFilter 1000 100) (fun _ => false) canardInitState
      replayFrame1).2.1 = none ∧
    (canardRxPush (exampleFilter 1000 100) (fun _ => true) canardInitState
      replayFrame1).2.1 = none := by
  refine ⟨by decide, by decide, by decide⟩

/-- C9 (amended): an allocator failure during canardTxPush or canardRxPush
causes no partial mutation — the TX queue, sequence counter and live-block
count, respectively the RX session table, are left exactly as they were and
no transfer is emitted — but with the interfaces declared in the header
(void canardTxPush; canardRxPush returning only a possibly-empty
CanardTransfer) the failure is not surfaced to the caller as an explicit
failure result of the operation. -/
theorem C9_alloc_failure_no_mutation :
    (∀ (oracle : Nat → Bool) (s : CanardInstanceState) (t : CanardTransfer),
      (tryAlloc oracle s.allocCount
          (txFrames s.mtu t (canardLocalNodeID s)).length).1 = false →
      (canardTxPush oracle s t).1.txQueue = s.txQueue ∧
      (canardTxPush oracle s t).1.txSeq = s.txSeq ∧
      (canardTxPush oracle s t).1.liveBlocks = s.liveBlocks)
    ∧ (∀ (f : CanardRxFilter) (oracle : Nat → Bool)
        (st : CanardInstanceState) (fr : CanardCANFrame),
        st.rxSessions = [] → fr.payload ≠ [] →
        fr.sourceNodeID ≤ CANARD_NODE_ID_MAX →
        (f fr.port fr.kind fr.sourceNodeID).transferIDTimeout ≠ 0 →
        oracle st.allocCount = false →
        (canardRxPush f oracle st fr).1.rxSessions = st.rxSessions ∧
        (canardRxPush f oracle st fr).1.txQueue = st.txQueue ∧
        (canardRxPush f oracle st fr).2.1 = none) := by
  constructor
  · intro oracle s t hfail
    unfold canardTxPush
    rcases htr : tryAlloc oracle s.allocCount
        (txFrames s.mtu t (canardLocalNodeID s)).length with ⟨ok, ids, c⟩
    rw [htr] at hfail
    rcases ok
    · simp only [htr]
      refine ⟨by trivial, by trivial, by trivial⟩
    · simp at hfail
  · intro f oracle st fr hsess hne hsrc hT hor
    rw [canardRxPush_alloc_fail f oracle st fr hsess hne hsrc hT hor]
    exact ⟨by simp [hsess], rfl, rfl⟩

/-- Closed witness for C9 (amended) at a concrete input: an always-failing
allocator leaves the fresh instance's queue and session table untouched. -/
theorem C9_alloc_failure_no_mutation_witness :
    ((canardTxPush (fun _ => false) canardInitState
        (exampleTransfer 4)).1.txQueue = canardInitState.txQueue ∧
      (canardTxPush (fun _ => false) canardInitState
        (exampleTransfer 4)).1.txSeq = canardInitState.txSeq ∧
      (canardTxPush (fun _ => false) canardInitState
        (exampleTransfer 4)).1.liveBlocks = canardInitState.liveBlocks)
    ∧ ((canardRxPush (exampleFilter 1000 100) (fun _ => false)
        canardInitState replayFrame1).1.rxSessions =
          canardInitState.rxSessions ∧
      (canardRxPush (exampleFilter 1000 100) (fun _ => false) canardInitState
        replayFrame1).1.txQueue = canardInitState.txQueue ∧
      (canardRxPush (exampleFilter 1000 100) (fun _ => false) canardInitState
        replayFrame1).2.1 = none) :=
  ⟨C9_alloc_failure_no_mutation.1 (fun _ => false) canardInitState
      (exampleTransfer 4) (by decide),
   C9_alloc_failure_no_mutation.2 (exampleFilter 1000 100) (fun _ => false)
      canardInitState replayFrame1 rfl (by decide) (by decide) (by decide)
      rfl⟩

/-- C10: every node-ID value strictly above CANARD_NODE_ID_MAX (127) is
treated as anonymous/unset, identically to CANARD_NODE_ID_UNSET (255): a
frame from such a source is processed by canardRxPush exactly as if its
source were UNSET (anonymous origin: filter consulted with UNSET, no session
state, single-frame transfers delivered with remote node-ID UNSET), and such
a local node-ID in the instance reads back as UNSET through the node-ID
view used by all operations. -/
theorem C10_node_id_above_max_unset (id : Nat)
    (hid : CANARD_NODE_ID_MAX < id) :
    (∀ (f : CanardRxFilter) (oracle : Nat → Bool) (st : CanardInstanceState)
      (fr : CanardCANFrame), fr.sourceNodeID = id →
      canardRxPush f oracle st fr =
        canardRxPush f oracle st
          { fr with sourceNodeID := CANARD_NODE_ID_UNSET })
    ∧ (∀ st : CanardInstanceState, st.nodeID = id →
        canardLocalNodeID st = CANARD_NODE_ID_UNSET ∧
        canardLocalNodeID st =
          canardLocalNodeID { st with nodeID := CANARD_NODE_ID_UNSET }) := by
  constructor
  · intro f oracle st fr hsr
    have h1 : CANARD_NODE_ID_MAX < fr.sourceNodeID := by rw [hsr]; exact hid
    have h2 : CANARD_NODE_ID_MAX < CANARD_NODE_ID_UNSET := by decide
    have h3 : ¬ fr.sourceNodeID ≤ CANARD_NODE_ID_MAX := by omega
    have h4 : ¬ CANARD_NODE_ID_UNSET ≤ CANARD_NODE_ID_MAX := by decide
    simp [canardRxPush, h1, h2, h3, h4]
  · intro st hn
    have h3 : ¬ st.nodeID ≤ CANARD_NODE_ID_MAX := by
      rw [hn]
      unfold CANARD_NODE_ID_MAX at hid ⊢
      omega
    constructor
    · simp [canardLocalNodeID, h3]
    · have h4 : ¬ st.nodeID ≤ 127 := by simpa [CANARD_NODE_ID_MAX] using h3
      simp [canardLocalNodeID, h4, CANARD_NODE_ID_UNSET, CANARD_NODE_ID_MAX]

/-- Closed witness for C10 at a concrete input: source node-ID 200 behaves
exactly like UNSET (255) in canardRxPush, and an instance whose node-ID field
is 200 reads back as UNSET. -/
theorem C10_node_id_above_max_unset_witness :
    (canardRxPush (exampleFilter 1000 8) (fun _ => true) canardInitState
        anonFrame =
      canardRxPush (exampleFilter 1000 8) (fun _ => true) canardInitState
        { anonFrame with sourceNodeID := CANARD_NODE_ID_UNSET })
    ∧ canardLocalNodeID { canardInitState with nodeID := 200 }
        = CANARD_NODE_ID_UNSET :=
  ⟨(C10_node_id_above_max_unset 200 (by decide)).1 (exampleFilter 1000 8)
      (fun _ => true) canardInitState anonFrame rfl,
   ((C10_node_id_above_max_unset 200 (by decide)).2
      { canardInitState with nodeID := 200 } rfl).1⟩

/-! ## Bit codec lemmas -/

theorem byteWriteBit_testBit (byte k : Nat) (b : Bool) (i : Nat) :
    (byteWriteBit byte k b).testBit i = if i = k then b else byte.testBit i := by
  have hv : byteWriteBit byte k b =
      2 ^ (k + 1) * (byte / 2 ^ (k + 1)) +
        (2 ^ k * (if b then 1 else 0) + byte % 2 ^ k) := by
    unfold byteWriteBit
    rcases b <;> simp <;> omega
  rw [hv]
  have hmod : byte % 2 ^ k < 2 ^ k := Nat.mod_lt byte (by positivity)
  have hlt : 2 ^ k * (if b then 1 else 0) + byte % 2 ^ k < 2 ^ (k + 1) := by
    have h2 : (2:Nat) ^ (k + 1) = 2 ^ k * 2 := by rw [pow_succ]
    rcases b <;> simp <;> omega
  rw [Nat.testBit_mul_pow_two_add _ hlt]
  rcases Nat.lt_trichotomy i k with hik | hik | hik
  · rw [if_pos (by omega), Nat.testBit_mul_pow_two_add _ hmod, if_pos hik,
      Nat.testBit_mod_two_pow]
    have d1 : decide (i < k) = true := by simp [hik]
    rw [d1, if_neg (by omega)]
    simp
  · subst hik
    rw [if_pos (by omega), Nat.testBit_mul_pow_two_add _ hmod,
      if_neg (by omega), if_pos rfl]
    rcases b <;> simp
  · rw [if_neg (by omega), if_neg (by omega)]
    rw [show byte / 2 ^ (k + 1) = byte >>> (k + 1) from
      (Nat.shiftRight_eq_div_pow _ _).symm, Nat.testBit_shiftRight]
    congr 1
    omega

theorem bufWriteBit_length (buf : List Nat) (i : Nat) (b : Bool) :
    (bufWriteBit buf i b).length = buf.length :=
  List.length_set _ _ _

theorem bufGetBit_writeBit (buf : List Nat) (j i : Nat) (b : Bool)
    (hcov : j / 8 < buf.length) :
    bufGetBit (bufWriteBit buf j b) i = if i = j then b else bufGetBit buf i := by
  unfold bufGetBit bufWriteBit
  rw [List.getD_eq_getElem?_getD, List.getElem?_set,
    List.getD_eq_getElem?_getD]
  by_cases hb : j / 8 = i / 8
  · rw [if_pos hb, if_pos (by omega)]
    have hij : i = j ↔ i % 8 = j % 8 := by omega
    rw [hb] at hcov ⊢
    rw [List.getD_eq_getElem?_getD]
    rcases hx : buf[i / 8]? with _ | byte
    · rw [List.getElem?_eq_none_iff] at hx
      omega
    · simp only [Option.getD_some, byteWriteBit_testBit]
      by_cases he : i = j
      · rw [if_pos he, if_pos (by omega)]
      · rw [if_neg (by omega), if_neg he]
  · rw [if_neg hb, if_neg (by omega), List.getD_eq_getElem?_getD]

theorem serialize_length (buf : List Nat) (off len v : Nat) :
    (canardDSDLPrimitiveSerialize buf off len v).length = buf.length := by
  induction len with
  | zero => rfl
  | succ n ih =>
    unfold canardDSDLPrimitiveSerialize at ih ⊢
    rw [List.range_succ, List.foldl_append]
    simp only [List.foldl_cons, List.foldl_nil]
    rw [bufWriteBit_length]
    exact ih

theorem serialize_getBit (buf : List Nat) (off len v : Nat)
    (hcov : off + len ≤ 8 * buf.length) (i : Nat) :
    bufGetBit (canardDSDLPrimitiveSerialize buf off len v) i =
      if off ≤ i ∧ i < off + len then v.testBit (i - off)
      else bufGetBit buf i := by
  induction len with
  | zero =>
    rw [if_neg (by omega)]
    rfl
  | succ n ih =>
    unfold canardDSDLPrimitiveSerialize at ih ⊢
    rw [List.range_succ, List.foldl_append]
    simp only [List.foldl_cons, List.foldl_nil]
    rw [bufGetBit_writeBit _ _ _ _
      (by
        have hl := serialize_length buf off n v
        unfold canardDSDLPrimitiveSerialize at hl
        rw [hl]
        omega)]
    by_cases he : i = off + n
    · rw [if_pos he, if_pos (by omega)]
      rw [he]
      simp
    · rw [if_neg he, ih (by omega)]
      by_cases hin : off ≤ i ∧ i < off + n
      · rw [if_pos hin, if_pos (by omega)]
      · rw [if_neg hin, if_neg (by omega)]

theorem deserializeU_spec (buf : List Nat) (off : Nat) (v : Nat) :
    ∀ len, (∀ k, k < len → bufGetBit buf (off + k) = v.testBit k) →
      canardDSDLPrimitiveDeserializeU buf off len = v % 2 ^ len := by
  intro len
  induction len with
  | zero => intro _; simp [canardDSDLPrimitiveDeserializeU, Nat.mod_one]
  | succ n ih =>
    intro hbits
    unfold canardDSDLPrimitiveDeserializeU at ih ⊢
    rw [List.range_succ, List.foldl_append]
    simp only [List.foldl_cons, List.foldl_nil]
    rw [ih (fun k hk => hbits k (by omega)), hbits n (by omega)]
    have hm : v % 2 ^ (n + 1) = v % 2 ^ n + 2 ^ n * (v / 2 ^ n % 2) :=
      Nat.mod_pow_succ
    rw [Nat.testBit_to_div_mod]
    by_cases hb : v / 2 ^ n % 2 = 1
    · rw [if_pos (by simp [hb])]
      rw [hb] at hm
      omega
    · have hb0 : v / 2 ^ n % 2 = 0 := by omega
      rw [if_neg (by simp [hb])]
      rw [hb0] at hm
      omega

theorem deserializeU_serialize (buf : List Nat) (off len v : Nat)
    (hcov : off + len ≤ 8 * buf.length) :
    canardDSDLPrimitiveDeserializeU
      (canardDSDLPrimitiveSerialize buf off len v) off len = v % 2 ^ len := by
  apply deserializeU_spec
  intro k hk
  rw [serialize_getBit buf off len v hcov (off + k), if_pos (by omega)]
  congr 1
  omega

/-- C5: for every bit length in [1, 64], every bit offset covered by the
buffer, and every value representable in that width, deserializing the bits
written by serialize at the same offset and length returns the original value
(two's-complement with sign extension for signed values); serialization
writes least-significant-bit-first within each byte (the definition of the
buffer bit order) and modifies no bit outside the target range and no byte
beyond the buffer. -/
theorem C5_codec_roundtrip :
    (∀ (buf : List Nat) (off len v : Nat), 1 ≤ len → len ≤ 64 →
      off + len ≤ 8 * buf.length → v < 2 ^ len →
      canardDSDLPrimitiveDeserialize
        (canardDSDLPrimitiveSerialize buf off len v) off len false = (v : Int))
    ∧ (∀ (buf : List Nat) (off len : Nat) (x : Int), 1 ≤ len → len ≤ 64 →
        off + len ≤ 8 * buf.length → -(2 ^ (len - 1)) ≤ x → x < 2 ^ (len - 1) →
        canardDSDLPrimitiveDeserialize
          (canardDSDLPrimitiveSerialize buf off len (toTwos64 x)) off len true
          = x)
    ∧ (∀ (buf : List Nat) (off len v i : Nat), off + len ≤ 8 * buf.length →
        ¬ (off ≤ i ∧ i < off + len) →
        bufGetBit (canardDSDLPrimitiveSerialize buf off len v) i
          = bufGetBit buf i)
    ∧ (∀ (buf : List Nat) (off len v : Nat),
        (canardDSDLPrimitiveSerialize buf off len v).length = buf.length) := by
  refine ⟨?_, ?_, ?_, ?_⟩
  · intro buf off len v h1 h64 hcov hv
    unfold canardDSDLPrimitiveDeserialize
    rw [deserializeU_serialize buf off len v hcov]
    rw [if_neg (by simp)]
    rw [Nat.mod_eq_of_lt hv]
  · intro buf off len x h1 h64 hcov hlo hhi
    unfold canardDSDLPrimitiveDeserialize
    rw [deserializeU_serialize buf off len (toTwos64 x) hcov]
    have hpow : (2:Nat) ^ len = 2 ^ (len - 1) * 2 := by
      rw [← pow_succ]
      congr 1
      omega
    have hc1 : ((2 ^ (len - 1) : Nat) : Int) = 2 ^ (len - 1) := by
      push_cast
      rfl
    have hc2 : ((2 ^ len : Nat) : Int) = 2 ^ len := by
      push_cast
      rfl
    have hc64 : ((2 ^ 64 : Nat) : Int) = 2 ^ 64 := by
      norm_num
    rcases le_or_lt 0 x with hx | hx
    · -- non-negative value: the pattern is x itself and the sign bit is clear
      have hxlt : x < 2 ^ 64 := by
        calc x < 2 ^ (len - 1) := hhi
        _ ≤ 2 ^ 64 := by
          apply pow_le_pow_right₀ (by norm_num)
          omega
      have ht : toTwos64 x = x.toNat := by
        unfold toTwos64
        rw [Int.emod_eq_of_lt hx (by exact_mod_cast hxlt)]
      rw [ht]
      have hxn : x.toNat < 2 ^ (len - 1) := by
        have := Int.toNat_of_nonneg hx
        omega
      have hxn2 : x.toNat < 2 ^ len := by omega
      rw [Nat.mod_eq_of_lt hxn2]
      rw [if_neg (by simp [Nat.testBit_lt_two_pow hxn])]
      exact_mod_cast Int.toNat_of_nonneg hx
    · -- negative value: the pattern is x + 2^64 and the sign bit is set
      have hlen64 : (2:Int) ^ len ≤ 2 ^ 64 := by
        apply pow_le_pow_right₀ (by norm_num)
        omega
      have hlow : (0:Int) ≤ x + 2 ^ 64 := by
        have : (2:Int) ^ (len - 1) ≤ 2 ^ 64 := by
          apply pow_le_pow_right₀ (by norm_num)
          omega
        omega
      have ht : (toTwos64 x : Int) = x + 2 ^ 64 := by
        unfold toTwos64
        rw [show x % (2:Int) ^ 64 = (x + 2 ^ 64) % 2 ^ 64 from by
          rw [show x + (2:Int) ^ 64 = x + 2 ^ 64 * 1 from by ring,
            Int.add_mul_emod_self_left]]
        rw [Int.emod_eq_of_lt hlow (by omega)]
        rw [Int.toNat_of_nonneg hlow]
      have hpow2 : (2:Int) ^ len = 2 ^ (len - 1) * 2 := by
        rw [← pow_succ]
        congr 1
        omega
      have hsplit : (2:Nat) ^ 64 = 2 ^ (64 - len) * 2 ^ len := by
        rw [← pow_add]
        congr 1
        omega
      have hr : toTwos64 x = (x + 2 ^ len).toNat + (2 ^ (64 - len) - 1) * 2 ^ len := by
        have h1n : ((x + 2 ^ len).toNat : Int) = x + 2 ^ len := by
          apply Int.toNat_of_nonneg
          have : (2:Int) ^ (len - 1) ≤ 2 ^ len := by omega
          omega
        have h2n : (1:Nat) ≤ 2 ^ (64 - len) := Nat.one_le_two_pow
        have h3n : ((2:Nat) ^ (64 - len) - 1) * 2 ^ len
            = 2 ^ 64 - 2 ^ len := by
          rw [Nat.sub_mul, one_mul, ← hsplit]
        have h4n : (2:Nat) ^ len ≤ 2 ^ 64 := by
          rw [hsplit]
          calc (2:Nat) ^ len = 1 * 2 ^ len := (one_mul _).symm
          _ ≤ 2 ^ (64 - len) * 2 ^ len :=
            Nat.mul_le_mul_right _ h2n
        have h5 : ((toTwos64 x : Nat) : Int) = x + 2 ^ 64 := ht
        omega
      rw [hr, Nat.add_mul_mod_self_right]
      have hxlt2 : (x + 2 ^ len).toNat < 2 ^ len := by
        have h1n : ((x + 2 ^ len).toNat : Int) = x + 2 ^ len := by
          apply Int.toNat_of_nonneg
          have : (2:Int) ^ (len - 1) ≤ 2 ^ len := by omega
          omega
        have : x + 2 ^ len < 2 ^ len := by omega
        omega
      rw [Nat.mod_eq_of_lt hxlt2]
      have hge : 2 ^ (len - 1) ≤ (x + 2 ^ len).toNat := by
        have h1n : ((x + 2 ^ len).toNat : Int) = x + 2 ^ len := by
          apply Int.toNat_of_nonneg
          have : (2:Int) ^ (len - 1) ≤ 2 ^ len := by omega
          omega
        have h2i : (2:Int) ^ (len - 1) ≤ x + 2 ^ len := by omega
        have h3i : ((2:Nat) ^ (len - 1) : Int) = (2:Int) ^ (len - 1) := by
          push_cast
          rfl
        omega
      have htop : (x + 2 ^ len).toNat.testBit (len - 1) = true := by
        rw [Nat.testBit_to_div_mod]
        have hdiv : (x + 2 ^ len).toNat / 2 ^ (len - 1) = 1 := by
          apply Nat.div_eq_of_lt_le
          · simpa using hge
          · omega
        simp [hdiv]
      rw [if_pos (by simp [htop])]
      have h1n : ((x + 2 ^ len).toNat : Int) = x + 2 ^ len := by
        apply Int.toNat_of_nonneg
        have : (2:Int) ^ (len - 1) ≤ 2 ^ len := by omega
        omega
      rw [h1n]
      ring
  · intro buf off len v i hcov hout
    rw [serialize_getBit buf off len v hcov i, if_neg hout]
  · intro buf off len v
    exact serialize_length buf off len v

/-- Closed witness for C5 at a concrete input: the signed value -3 written
into a 5-bit field at bit offset 3 of a two-byte buffer reads back as -3. -/
theorem C5_codec_roundtrip_witness :
    canardDSDLPrimitiveDeserialize
      (canardDSDLPrimitiveSerialize [0, 0] 3 5 (toTwos64 (-3))) 3 5 true
      = -3 :=
  C5_codec_roundtrip.2.1 [0, 0] 3 5 (-3) (by decide) (by decide) (by decide)
    (by decide) (by decide)

/-! ## C8: half-precision round trip -/

/-- Round-to-nearest-even division is exact on multiples of the divisor. -/
theorem rneDiv_mul_pow (a sh : Nat) : rneDiv (a * 2 ^ sh) sh = a := by
  simp only [rneDiv]
  rw [Nat.mul_div_cancel a (show 0 < 2 ^ sh by positivity), Nat.mul_mod_left]
  have hcond : ¬ (2 ^ (sh - 1) < 0 ∨ (0 = 2 ^ (sh - 1) ∧ a % 2 = 1)) := by
    have h1 : (1 : Nat) ≤ 2 ^ (sh - 1) := Nat.one_le_two_pow
    omega
  rw [if_neg hcond]

/-- Core round-trip lemma on a binary16 pattern given by its sign, exponent
and mantissa fields: non-NaN patterns narrow back to themselves exactly and
NaN patterns stay NaN. -/
theorem float16_roundtrip_core (s e m : Nat) (hs : s ≤ 1) (he : e < 2 ^ 5)
    (hm : m < 2 ^ 10) :
    (¬ isNaN16 (s * 2 ^ 15 + e * 2 ^ 10 + m) →
      canardDSDLFloat16Serialize
        (canardDSDLFloat16Deserialize (s * 2 ^ 15 + e * 2 ^ 10 + m))
        = s * 2 ^ 15 + e * 2 ^ 10 + m)
    ∧ (isNaN16 (s * 2 ^ 15 + e * 2 ^ 10 + m) →
        isNaN16 (canardDSDLFloat16Serialize
          (canardDSDLFloat16Deserialize (s * 2 ^ 15 + e * 2 ^ 10 + m)))) := by
  have hes : (s * 2 ^ 15 + e * 2 ^ 10 + m) / 2 ^ 15 % 2 = s := by omega
  have hee : (s * 2 ^ 15 + e * 2 ^ 10 + m) / 2 ^ 10 % 2 ^ 5 = e := by omega
  have hem : (s * 2 ^ 15 + e * 2 ^ 10 + m) % 2 ^ 10 = m := by omega
  have hnan : isNaN16 (s * 2 ^ 15 + e * 2 ^ 10 + m) ↔ (e = 31 ∧ m ≠ 0) := by
    unfold isNaN16
    rw [hee, hem]
  simp only [canardDSDLFloat16Deserialize]
  rw [hes, hee, hem]
  by_cases he0 : e = 0
  · subst he0
    rw [if_pos rfl]
    by_cases hm0 : m = 0
    · subst hm0
      rw [if_pos rfl]
      constructor
      · intro _
        simp only [canardDSDLFloat16Serialize]
        have h1 : s * 2 ^ 31 / 2 ^ 31 % 2 = s := by omega
        have h2 : s * 2 ^ 31 / 2 ^ 23 % 2 ^ 8 = 0 := by omega
        have h3 : s * 2 ^ 31 % 2 ^ 23 = 0 := by omega
        rw [h1, h2, h3]
        rw [if_neg (by omega), if_neg (by omega), if_neg (by omega),
          if_pos rfl]
        omega
      · intro hn
        rw [hnan] at hn
        exact absurd hn.1 (by norm_num)
    · rw [if_neg hm0]
      have hk2 : 2 ^ Nat.log2 m ≤ m := Nat.log2_self_le hm0
      have hk3 : m < 2 ^ (Nat.log2 m + 1) := Nat.lt_log2_self
      have hk9 : Nat.log2 m ≤ 9 := by
        have := (Nat.log2_lt hm0).mpr hm
        omega
      have hpowk : (2 : Nat) ^ Nat.log2 m * 2 ^ (23 - Nat.log2 m)
          = 2 ^ 23 := by
        rw [← pow_add]
        congr 1
        omega
      have hge : 2 ^ 23 ≤ m * 2 ^ (23 - Nat.log2 m) := by
        calc (2 : Nat) ^ 23 = 2 ^ Nat.log2 m * 2 ^ (23 - Nat.log2 m) :=
              hpowk.symm
          _ ≤ m * 2 ^ (23 - Nat.log2 m) := Nat.mul_le_mul_right _ hk2
      have hlt24 : m * 2 ^ (23 - Nat.log2 m) < 2 ^ 24 := by
        have h1 : m * 2 ^ (23 - Nat.log2 m)
            < 2 ^ (Nat.log2 m + 1) * 2 ^ (23 - Nat.log2 m) :=
          (Nat.mul_lt_mul_right (show 0 < 2 ^ (23 - Nat.log2 m) by
            positivity)).mpr hk3
        have h2 : (2 : Nat) ^ (Nat.log2 m + 1) * 2 ^ (23 - Nat.log2 m)
            = 2 ^ 24 := by
          rw [← pow_add]
          congr 1
          omega
        omega
      obtain ⟨M, hMdef⟩ :
          ∃ M, (m - 2 ^ Nat.log2 m) * 2 ^ (23 - Nat.log2 m) = M := ⟨_, rfl⟩
      have hId : 2 ^ 23 + M = m * 2 ^ (23 - Nat.log2 m) := by
        rw [← hMdef, Nat.sub_mul, hpowk]
        omega
      obtain ⟨P, hPdef⟩ : ∃ P, m * 2 ^ (23 - Nat.log2 m) = P := ⟨_, rfl⟩
      rw [hPdef] at hge hlt24 hId
      have hMlt : M < 2 ^ 23 := by omega
      rw [hMdef]
      constructor
      · intro _
        simp only [canardDSDLFloat16Serialize]
        have h1 : (s * 2 ^ 31 + (Nat.log2 m + 103) * 2 ^ 23 + M)
            / 2 ^ 31 % 2 = s := by omega
        have h2 : (s * 2 ^ 31 + (Nat.log2 m + 103) * 2 ^ 23 + M)
            / 2 ^ 23 % 2 ^ 8 = Nat.log2 m + 103 := by omega
        have h3 : (s * 2 ^ 31 + (Nat.log2 m + 103) * 2 ^ 23 + M)
            % 2 ^ 23 = M := by omega
        rw [h1, h2, h3]
        rw [if_neg (by omega), if_neg (by omega), if_neg (by omega),
          if_neg (by omega)]
        rw [show 126 - (Nat.log2 m + 103) = 23 - Nat.log2 m from by omega]
        rw [hId, ← hPdef, rneDiv_mul_pow]
        omega
      · intro hn
        rw [hnan] at hn
        exact absurd hn.1 (by norm_num)
  · rw [if_neg he0]
    by_cases he31 : e = 31
    · subst he31
      rw [if_pos rfl]
      by_cases hm0 : m = 0
      · subst hm0
        rw [if_pos rfl]
        constructor
        · intro _
          simp only [canardDSDLFloat16Serialize]
          have h1 : (s * 2 ^ 31 + 255 * 2 ^ 23) / 2 ^ 31 % 2 = s := by omega
          have h2 : (s * 2 ^ 31 + 255 * 2 ^ 23) / 2 ^ 23 % 2 ^ 8 = 255 := by
            omega
          have h3 : (s * 2 ^ 31 + 255 * 2 ^ 23) % 2 ^ 23 = 0 := by omega
          rw [h1, h2, h3]
          rw [if_pos rfl, if_pos rfl]
          omega
        · intro hn
          rw [hnan] at hn
          exact absurd rfl hn.2
      · rw [if_neg hm0]
        constructor
        · intro hn
          exact absurd (hnan.mpr ⟨rfl, hm0⟩) hn
        · intro _
          simp only [canardDSDLFloat16Serialize]
          have h1 : (s * 2 ^ 31 + 255 * 2 ^ 23 + m * 2 ^ 13)
              / 2 ^ 31 % 2 = s := by omega
          have h2 : (s * 2 ^ 31 + 255 * 2 ^ 23 + m * 2 ^ 13)
              / 2 ^ 23 % 2 ^ 8 = 255 := by omega
          have h3 : (s * 2 ^ 31 + 255 * 2 ^ 23 + m * 2 ^ 13)
              % 2 ^ 23 = m * 2 ^ 13 := by omega
          rw [h1, h2, h3]
          rw [if_pos rfl, if_neg (by omega)]
          rw [Nat.mul_div_cancel m (show 0 < 2 ^ 13 by positivity)]
          obtain ⟨w, hwdef⟩ : ∃ w, 2 ^ 9 ||| m = w := ⟨_, rfl⟩
          have hw : w < 2 ^ 10 := by
            rw [← hwdef]
            exact Nat.or_lt_two_pow (by norm_num) hm
          have hw0 : w ≠ 0 := by
            intro h0
            have h9 : (2 ^ 9 ||| m).testBit 9 = true := by
              simp only [Nat.testBit_or, Bool.or_eq_true]
              exact Or.inl (by decide)
            rw [hwdef, h0] at h9
            simp at h9
          rw [hwdef]
          exact ⟨by omega, by omega⟩
    · rw [if_neg he31]
      constructor
      · intro _
        simp only [canardDSDLFloat16Serialize]
        have h1 : (s * 2 ^ 31 + (e + 112) * 2 ^ 23 + m * 2 ^ 13)
            / 2 ^ 31 % 2 = s := by omega
        have h2 : (s * 2 ^ 31 + (e + 112) * 2 ^ 23 + m * 2 ^ 13)
            / 2 ^ 23 % 2 ^ 8 = e + 112 := by omega
        have h3 : (s * 2 ^ 31 + (e + 112) * 2 ^ 23 + m * 2 ^ 13)
            % 2 ^ 23 = m * 2 ^ 13 := by omega
        rw [h1, h2, h3]
        rw [if_neg (by omega), if_neg (by omega), if_pos (by omega)]
        rw [show e + 112 - 112 = e from by omega, rneDiv_mul_pow]
      · intro hn
        rw [hnan] at hn
        exact absurd hn.1 he31

/-- **C8.** canardDSDLFloat16Deserialize performs exact binary16-to-binary32
widening and canardDSDLFloat16Serialize performs round-to-nearest-even
narrowing; for every binary16 bit pattern (that is, every binary32 value
exactly representable in binary16) the round trip reproduces the pattern
exactly when it is not NaN — in particular plus and minus zero and plus and
minus infinity are preserved — and every NaN pattern widens and narrows back
to a NaN (the payload need not be bit-exact). -/
theorem C8_float16_roundtrip :
    ∀ h : Nat, h < 2 ^ 16 →
      (¬ isNaN16 h →
        canardDSDLFloat16Serialize (canardDSDLFloat16Deserialize h) = h)
      ∧ (isNaN16 h →
          isNaN16 (canardDSDLFloat16Serialize
            (canardDSDLFloat16Deserialize h))) := by
  intro h hh
  obtain ⟨s, e, m, hs, he, hm, rfl⟩ :
      ∃ s e m, s ≤ 1 ∧ e < 2 ^ 5 ∧ m < 2 ^ 10 ∧
        h = s * 2 ^ 15 + e * 2 ^ 10 + m :=
    ⟨h / 2 ^ 15, h / 2 ^ 10 % 2 ^ 5, h % 2 ^ 10,
      by omega, by omega, by omega, by omega⟩
  exact float16_roundtrip_core s e m hs he hm

/-- Closed witness for C8 at concrete inputs: the binary16 pattern of 1.0
(0x3C00 = 15360) round-trips exactly, and the NaN pattern 0x7E01 = 32257
stays NaN after the round trip. -/
theorem C8_float16_roundtrip_witness :
    canardDSDLFloat16Serialize (canardDSDLFloat16Deserialize 15360) = 15360
    ∧ isNaN16 (canardDSDLFloat16Serialize
        (canardDSDLFloat16Deserialize 32257)) :=
  ⟨(C8_float16_roundtrip 15360 (by decide)).1 (by unfold isNaN16; decide),
   (C8_float16_roundtrip 32257 (by decide)).2 (by unfold isNaN16; decide)⟩

end Canard
